import Mathlib

/-!
Verification of the px live test-run reporter (`px_pytest_plugin.py`).

The reporter consumes pytest lifecycle events (`pytest_sessionstart`,
`pytest_collection_finish`, `pytest_collectreport`,
`pytest_runtest_logreport`, `pytest_sessionfinish`) and renders a progress
line, per-test result lines and a post-mortem (failures, collection errors,
summary) to stdout.

The embedding below models:
- Python string primitives used by the reporter (`in`, `lower`, `split`,
  `split(sep, 1)`, `replace`, `replace(old, new, 1)`, `strip`,
  `rstrip("\n")`, `splitlines`) as executable functions on `List Char`;
- the reporter's per-event handlers as state transformers that also return
  the text written to stdout;
- pytest's `TerminalWriter` (external dependency) by its documented
  behaviour: ANSI markup is emitted only when `hasmarkup` is set, and the
  reporter sets `hasmarkup := sys.stdout.isatty()`;
- wall-clock derived text (`f"{...:.2f}"` durations) as opaque,
  pre-formatted strings carried on the events, since real time is not part
  of the shallow embedding;
- file I/O of the snippet loader by a `String → Option (List String)` map
  (`none` models an `OSError` on `open`/`readlines`), plus a separate
  three-valued `ReadResult` model that also covers `UnicodeDecodeError`,
  which Python does not classify as an `OSError`.
-/

namespace PxReporter

/-! ## Python string primitives, on `List Char` -/

/-- The ASCII escape character, start of an ANSI color/bold sequence. -/
def escChar : Char := Char.ofNat 27

/-- Whitespace for Python `str.strip()` (ASCII fragment; the reporter only
strips around message text). -/
def isPySpace (c : Char) : Bool :=
  c = ' ' || c = '\t' || c = '\n' || c = '\r' || c = Char.ofNat 11 || c = Char.ofNat 12

/-- Boolean prefix test on character lists. -/
def isPre : List Char → List Char → Bool
  | [], _ => true
  | _ :: _, [] => false
  | a :: as, b :: bs => if a = b then isPre as bs else false

/-- Python `sub in s`: substring containment. -/
def pyIn (sub : List Char) : List Char → Bool
  | [] => sub.isEmpty
  | c :: rest => isPre sub (c :: rest) || pyIn sub rest

/-- First occurrence of `sep`: `some (before, after)` when `sep` occurs,
`none` otherwise. Shared engine of Python `split`, `split(sep, 1)`
and `replace`. -/
def splitFirst (sep : List Char) : List Char → Option (List Char × List Char)
  | [] => none
  | c :: rest =>
    if isPre sep (c :: rest) then some ([], (c :: rest).drop sep.length)
    else (splitFirst sep rest).map (fun pr => (c :: pr.1, pr.2))

/-- Python `s.split(sep)` for nonempty `sep`, with explicit fuel (the number
of characters bounds the number of separator occurrences). -/
def pySplitGo (sep : List Char) : Nat → List Char → List (List Char)
  | 0, l => [l]
  | fuel + 1, l =>
    match splitFirst sep l with
    | none => [l]
    | some (pre, post) => pre :: pySplitGo sep fuel post

/-- Python `s.split(sep)` for nonempty `sep`. -/
def pySplit (sep l : List Char) : List (List Char) :=
  pySplitGo sep l.length l

/-- Join a list of pieces with a separator (Python `sep.join`). -/
def pyJoinWith (sep : List Char) : List (List Char) → List Char
  | [] => []
  | [x] => x
  | x :: y :: rest => x ++ sep ++ pyJoinWith sep (y :: rest)

/-- Python `s.replace(old, new)` (all occurrences, left to right). -/
def pyReplaceAll (old new l : List Char) : List Char :=
  pyJoinWith new (pySplit old l)

/-- Python `s.replace(old, new, 1)` (first occurrence only). -/
def pyReplaceOnce (old new l : List Char) : List Char :=
  match splitFirst old l with
  | none => l
  | some (pre, post) => pre ++ new ++ post

/-- Python `s.strip()`. -/
def pyStrip (l : List Char) : List Char :=
  ((l.dropWhile isPySpace).reverse.dropWhile isPySpace).reverse

/-- Python `s.rstrip("\n")`: drop trailing newline characters. -/
def pyRstripNl (s : String) : String :=
  String.mk (s.data.reverse.dropWhile (fun c => c = '\n')).reverse

/-- Python `s.splitlines()` restricted to the terminators `"\r\n"`, `"\r"`,
`"\n"` (the ones that occur in rendered failure text). -/
def pySplitlinesGo : List Char → List Char → List (List Char)
  | acc, [] => if acc.isEmpty then [] else [acc.reverse]
  | acc, '\r' :: '\n' :: rest => acc.reverse :: pySplitlinesGo [] rest
  | acc, '\r' :: rest => acc.reverse :: pySplitlinesGo [] rest
  | acc, '\n' :: rest => acc.reverse :: pySplitlinesGo [] rest
  | acc, c :: rest => pySplitlinesGo (c :: acc) rest

/-- Python `s.splitlines()`. -/
def pySplitlines (l : List Char) : List (List Char) :=
  pySplitlinesGo [] l

/-- Python `str.lower()` (ASCII fragment, which covers the reporter's
markers). -/
def pyLower (l : List Char) : List Char :=
  l.map Char.toLower

/-- Distinct elements of a list in first-occurrence order: models the size
of the Python set `{str(item.fspath) for item in items}`. -/
def pyDedup (l : List String) : List String :=
  l.foldl (fun acc x => if x ∈ acc then acc else acc ++ [x]) []

/-- One decimal digit (`m` is always reduced mod 10). -/
def decDigitChar (m : Nat) : Char :=
  match m % 10 with
  | 0 => '0' | 1 => '1' | 2 => '2' | 3 => '3' | 4 => '4'
  | 5 => '5' | 6 => '6' | 7 => '7' | 8 => '8' | _ => '9'

/-- Decimal digits of `n`, most significant first (structural fuel). -/
def decDigitsGo : Nat → Nat → List Char
  | 0, _ => []
  | _ + 1, 0 => []
  | fuel + 1, n => decDigitsGo fuel (n / 10) ++ [decDigitChar n]

/-- Decimal rendering of a natural number (Python `f"{n}"`). -/
def decStr (n : Nat) : String :=
  if n = 0 then "0" else String.mk (decDigitsGo (n + 1) n)

/-- Decimal rendering of an integer (Python `f"{i}"`). -/
def decStrInt (i : Int) : String :=
  if i < 0 then "-" ++ decStr i.natAbs else decStr i.toNat

/-- A run of `n` spaces. -/
def spaces (n : Nat) : String :=
  String.mk (List.replicate n ' ')

/-- Python `f"{i:>4}"`: right-align in a field of width 4. -/
def rjust4 (s : String) : String :=
  spaces (4 - s.length) ++ s

/-! ## Data model of the reporter -/

/-- The outcome of a pytest report: pytest guarantees that exactly one of
`report.passed`, `report.skipped`, `report.failed` holds, so the three
boolean attributes are modelled as one enumeration. -/
inductive Outcome
  | passed
  | skipped
  | failed
deriving DecidableEq

/-- One of the four terminal statuses the reporter assigns in
`pytest_runtest_logreport` (the `stats` dict also has `xfailed` and
`xpassed` keys, but no handler ever assigns those: see claim C10). -/
inductive Status
  | passed
  | failed
  | skipped
  | error
deriving DecidableEq

/-- The reporter's `self.stats` dict, keys in insertion order. -/
structure Stats where
  passed : Nat
  failed : Nat
  skipped : Nat
  error : Nat
  xfailed : Nat
  xpassed : Nat
deriving DecidableEq

/-- `sum(self.stats.values())`, also the `completed` expression of
`_render_progress` (dict iteration order is insertion order). -/
def sumStats (s : Stats) : Nat :=
  s.passed + s.failed + s.skipped + s.error + s.xfailed + s.xpassed

/-- `self.stats[status] += 1`. -/
def incrStat (s : Stats) : Status → Stats
  | .passed => { s with passed := s.passed + 1 }
  | .failed => { s with failed := s.failed + 1 }
  | .skipped => { s with skipped := s.skipped + 1 }
  | .error => { s with error := s.error + 1 }

/-- `self.stats[status]`. -/
def getStat (s : Stats) : Status → Nat
  | .passed => s.passed
  | .failed => s.failed
  | .skipped => s.skipped
  | .error => s.error

/-- `longrepr.reprcrash`: structured crash info (message, path, line). -/
structure Crash where
  message : String
  path : String
  lineno : Int
deriving DecidableEq

/-- The `report.longrepr` attribute: either an exception-representation
object (which has a `reprcrash` attribute, possibly `None`, and renders as
`text` under `str`), or a plain string. `hasattr(longrepr, "reprcrash")`
holds exactly for the `obj` form. -/
inductive LongreprV
  | obj (reprcrash : Option Crash) (text : String)
  | str (s : String)
deriving DecidableEq

/-- A pytest test report, with the fields the reporter reads:
`when`, the outcome, `location = (path, zero-based line, domain name)`,
`duration` (carried pre-formatted, standing for `f"{duration:.2f}"`),
`nodeid`, `longrepr` (`none` models `longrepr is None`) and the
`longreprtext` attribute (`none` models `hasattr` being false). -/
structure Report where
  when : String
  outcome : Outcome
  locPath : String
  locLine : Int
  locName : String
  durationStr : String
  nodeid : String
  longrepr : Option LongreprV
  longreprtext : Option String
deriving DecidableEq

/-- The lifecycle events the reporter consumes, with the fields each handler
reads. Duration strings stand for the `f"{...:.2f}"`-formatted wall-clock
values, which the shallow embedding does not model. -/
inductive Event
  | sessionStart (pyVer pytestVer root cfg : String)
  | collectionFinish (items : List String) (durStr : String)
  | collectReport (fspath : String) (failed : Bool) (summary : String)
  | testReport (r : Report)
  | sessionFinish (exitstatus : Int) (durStr : String)
deriving DecidableEq

/-- The mutable attributes of `PxTerminalReporter` that the handlers touch
(timestamps are replaced by the pre-formatted duration strings on the
events). -/
structure RState where
  isTty : Bool
  collected : Nat
  files : List String
  currentFile : Option String
  failures : List Report
  collectionErrors : List (String × String)
  stats : Stats
  spinnerIndex : Nat
  lastProgressLen : Nat
  spinnerActive : Bool
  exitstatus : Int
deriving DecidableEq

/-- `PxTerminalReporter.__init__`: counters zero, spinner active only on a
tty. -/
def initState (tty : Bool) : RState :=
  { isTty := tty
    collected := 0
    files := []
    currentFile := none
    failures := []
    collectionErrors := []
    stats := ⟨0, 0, 0, 0, 0, 0⟩
    spinnerIndex := 0
    lastProgressLen := 0
    spinnerActive := tty
    exitstatus := 0 }

/-! ## Rendering primitives -/

/-- pytest's `TerminalWriter.line` (external dependency), by its documented
behaviour: the text, wrapped in an ANSI attribute sequence exactly when
`hasmarkup` is set and a markup keyword was passed, then a newline. The
reporter sets `hasmarkup := sys.stdout.isatty()`. -/
def twLine (hasmarkup markup : Bool) (text : String) : String :=
  (if hasmarkup && markup then
     String.mk [escChar] ++ "[1m" ++ text ++ String.mk [escChar] ++ "[0m"
   else text) ++ "\n"

/-- The ten braille spinner frames of `self.spinner_frames`. -/
def spinnerFrames : List String :=
  ["⠋", "⠙", "⠹", "⠸", "⠼", "⠴", "⠦", "⠧", "⠇", "⠏"]

/-- `_render_progress`: only on a tty, and (unless forced) only while the
spinner is active; writes a carriage-return-led status line padded to cover
the previous one. -/
def render_progress (s : RState) (note : String) (force : Bool) : RState × String :=
  if !s.isTty then (s, "")
  else if !force && !s.spinnerActive then (s, "")
  else
    let total := if s.collected = 0 then "?" else decStr s.collected
    let completed := sumStats s.stats
    let frame := (spinnerFrames.getD (s.spinnerIndex % spinnerFrames.length) "")
    let line :=
      "\r" ++ frame ++ " " ++ decStr completed ++ "/" ++ total ++
      " • pass:" ++ decStr s.stats.passed ++ " fail:" ++ decStr s.stats.failed ++
      " skip:" ++ decStr s.stats.skipped ++ " err:" ++ decStr s.stats.error ++
      (if note ≠ "" then " • " ++ note else "")
    let padding := s.lastProgressLen - line.length
    ({ s with spinnerIndex := s.spinnerIndex + 1, lastProgressLen := line.length },
     line ++ spaces padding)

/-- `_clear_spinner`: only on a tty and only when a progress line is
pending; overwrites it with spaces. -/
def clear_spinner (s : RState) (newline : Bool) : RState × String :=
  if !s.isTty then (s, "")
  else if s.lastProgressLen = 0 then (s, "")
  else
    ({ s with lastProgressLen := 0 },
     "\r" ++ spaces s.lastProgressLen ++ (if newline then "\n" else "\r"))

/-- `_status_icon` (text part; the color keywords feed the markup flag of
`twLine`). `xpassed`/`xfailed` share the `passed`/`skipped` arms in the
source but are unreachable, since no handler produces them. -/
def status_icon : Status → String
  | .passed => "✓"
  | .skipped => "∙"
  | .failed => "✗"
  | .error => "✗"

/-! ## Event handlers -/

/-- The status-mapping logic of `pytest_runtest_logreport` (lines 78-89):
phases other than setup/call/teardown are dropped; a pass counts only in
the call phase; a skip counts in any of the three phases; a failure is
`failed` in the call phase and `error` in setup/teardown. -/
def logreport_status (w : String) (o : Outcome) : Option Status :=
  if w = "setup" ∨ w = "call" ∨ w = "teardown" then
    match o with
    | .passed => if w = "call" then some Status.passed else none
    | .skipped => some Status.skipped
    | .failed => some (if w = "call" then Status.failed else Status.error)
  else none

/-- `_print_test_result`: a blank line and a file header once per new file,
then the icon/name/duration line (colored, hence markup). -/
def print_test_result (s : RState) (filePath name : String) (st : Status)
    (durStr : String) : RState × String :=
  let hdr :=
    if s.currentFile ≠ some filePath then
      twLine s.isTty false "" ++ twLine s.isTty false filePath
    else ""
  let s1 :=
    if s.currentFile ≠ some filePath then { s with currentFile := some filePath } else s
  (s1, hdr ++ twLine s.isTty true ("  " ++ status_icon st ++ " " ++ name ++ "  " ++ durStr ++ "s"))

/-- `pytest_runtest_logreport`: classify, count, print, and buffer failed
reports for the post-mortem phase. -/
def pytest_runtest_logreport (s : RState) (r : Report) : RState × String :=
  if r.when = "setup" ∨ r.when = "call" ∨ r.when = "teardown" then
    let status := logreport_status r.when r.outcome
    let stats' :=
      match status with
      | some st => incrStat s.stats st
      | none => s.stats
    let (s1, out) :=
      match status with
      | some st => print_test_result { s with stats := stats' } r.locPath r.locName st r.durationStr
      | none => ({ s with stats := stats' }, "")
    let s2 :=
      if r.outcome = Outcome.failed then { s1 with failures := s1.failures ++ [r] } else s1
    (s2, out)
  else (s, "")

/-! ## Failure analysis -/

/-- `_failure_message` (lines 218-224). `.error ()` models the uncaught
`IndexError` of `report.longreprtext.splitlines()[0]` when the rendered
failure text is empty (Python `"".splitlines()` is `[]`). The final line
`str(longrepr) if longrepr else "test failed"` is reached only when the
report has no `longreprtext` attribute; an empty-string `longrepr` is falsy
there. -/
def failure_message (r : Report) : Except Unit String :=
  match r.longrepr with
  | some (.obj (some c) _) => Except.ok c.message
  | lr =>
    match r.longreprtext with
    | some t =>
      match pySplitlines t.data with
      | [] => Except.error ()
      | l :: _ => Except.ok (String.mk l)
    | none =>
      match lr with
      | some (.obj _ txt) => Except.ok txt
      | some (.str s) => if s = "" then Except.ok "test failed" else Except.ok s
      | none => Except.ok "test failed"

/-- `_failure_lineno` (lines 241-246): prefer the structured crash's
file/line, else the test's own location with the zero-based line bumped
by one. -/
def failure_lineno (r : Report) : String × Int :=
  match r.longrepr with
  | some (.obj (some c) _) => (c.path, c.lineno)
  | _ => (r.locPath, r.locLine + 1)

/-- The crash summary `_assertion_explanation` starts from:
`longrepr.reprcrash.message` when a truthy `reprcrash` exists, else the
heuristic is skipped. -/
def crashMsg (r : Report) : Option String :=
  match r.longrepr with
  | some (.obj (some c) _) => some c.message
  | _ => none

/-- The string transformation of `_assertion_explanation` (lines 254-272),
applied to a nonempty crash summary. -/
def explainTransform (m : List Char) : List Char :=
  let lowered := pyLower m
  if pyIn "did not raise".data lowered then
    let expected := pyStrip ((pySplit "DID NOT RAISE".data m).getLastD [])
    let expected := if expected = [] then "expected exception".data else expected
    "Expected ".data ++ expected ++ " to be raised, but none was.".data
  else if pyIn "assert".data lowered && pyIn "==".data m then
    match splitFirst "==".data m with
    | some (pre, post) =>
      let left := pyStrip (pyReplaceOnce "assert".data [] (pyReplaceAll "AssertionError:".data [] pre))
      let right := pyStrip post
      "Expected: ".data ++ right ++
        (if left = [] then [] else "\n     Actual:   ".data ++ left)
    | none => m
  else
    pyStrip (pyReplaceAll "AssertionError:".data [] m)

/-- `_assertion_explanation` (lines 248-276) as a function of the crash
summary: `none` when there is no (truthy) crash summary or the transform
leaves nothing; otherwise the transformed text split on `"\n"`, keeping
the parts with a nonempty strip. (The `none` arm of `splitFirst` inside
`explainTransform` is unreachable: the branch is guarded by
`"==" in summary`.) -/
def assertion_explanation (crashMessage : Option String) : Option (List String) :=
  let summary : List Char :=
    match crashMessage with
    | some m => if m.data = [] then [] else explainTransform m.data
    | none => []
  if summary = [] then none
  else some (((pySplit ['\n'] summary).filter (fun p => pyStrip p ≠ [])).map String.mk)

/-! ## Snippet loader -/

/-- The window computation of `_load_snippet` (lines 233-239), over the
already-read lines of the file: zero-based indices in
`[max 0 (lineno - context - 1), min len (lineno + context))`, each line
stripped of trailing newlines and paired with its one-based number. -/
def load_snippet (lines : List String) (lineno context : Int) : List (Int × String) :=
  let start : Int := max 0 (lineno - context - 1)
  let stop : Int := min (lines.length : Int) (lineno + context)
  (List.range (stop - start).toNat).map (fun (k : Nat) =>
    ((start + (k : Int) + 1, pyRstripNl (lines.getD (start + (k : Int)).toNat ""))))

/-- What reading the snippet file can yield: its decoded lines, an
`OSError` (missing file, permission denied), or a `UnicodeDecodeError`
while decoding the bytes as UTF-8 (which Python raises from `readlines`
and which is not an `OSError`). -/
inductive ReadResult
  | ok (lines : List String)
  | osError
  | decodeError
deriving DecidableEq

/-- `_load_snippet` (lines 226-239) including its I/O behaviour: the
`try`/`except OSError` catches only `osError` (returning `None`); a
`decodeError` escapes the handler and propagates (`Except.error`). -/
def load_snippet_checked (rd : ReadResult) (lineno context : Int) :
    Except Unit (Option (List (Int × String))) :=
  match rd with
  | .ok lines => Except.ok (some (load_snippet lines lineno context))
  | .osError => Except.ok none
  | .decodeError => Except.error ()

/-- The pointer glyph of `_render_single_failure` line 186: the target line
is marked, the context lines are not. -/
def snippetPointer (i lineno : Int) : String :=
  if i = lineno then "→" else " "

/-! ## Post-mortem rendering -/

/-- One snippet row, `_render_single_failure` line 187. -/
def snippetRow (lineno : Int) (row : Int × String) : String :=
  "  " ++ snippetPointer row.1 lineno ++ rjust4 (decStrInt row.1) ++ "  " ++ row.2

/-- `_render_single_failure` (lines 172-193). The run-level model reads the
file system as `fs : String → Option (List String)`, `none` standing for an
`OSError`. Returns the text written and `false` when `_failure_message`
raised (the output written before the exception is kept). -/
def render_single_failure (fs : String → Option (List String)) (tty : Bool)
    (idx : Nat) (r : Report) : String × Bool :=
  let head :=
    twLine tty false "" ++
    twLine tty true (decStr idx ++ ") " ++ r.nodeid) ++
    twLine tty false ""
  match failure_message r with
  | Except.error _ => (head, false)
  | Except.ok message =>
    let msgOut :=
      if message ≠ "" then
        twLine tty true ("   " ++ message) ++ twLine tty false ""
      else ""
    let pl := failure_lineno r
    let snipOut :=
      match fs pl.1 with
      | none => ""
      | some lines =>
        let snippet := load_snippet lines pl.2 2
        if snippet = [] then ""
        else
          twLine tty false ("   " ++ pl.1 ++ ":" ++ decStrInt pl.2) ++
          String.join (snippet.map (fun row => twLine tty false (snippetRow pl.2 row))) ++
          twLine tty false ""
    let explOut :=
      match assertion_explanation (crashMsg r) with
      | none => ""
      | some [] => ""
      | some lines =>
        twLine tty false "   Explanation:" ++
        String.join (lines.map (fun line => twLine tty false ("     " ++ line)))
    (head ++ msgOut ++ snipOut ++ explOut, true)

/-- The enumeration loop of `_render_failures`, stopping at the first
failure whose rendering raises. -/
def renderFailuresGo (fs : String → Option (List String)) (tty : Bool) :
    Nat → List Report → String × Bool
  | _, [] => ("", true)
  | idx, r :: rest =>
    let (o, ok) := render_single_failure fs tty idx r
    if ok then
      let (o', ok') := renderFailuresGo fs tty (idx + 1) rest
      (o ++ o', ok')
    else (o, false)

/-- `_render_failures` (lines 154-158). -/
def render_failures (fs : String → Option (List String)) (s : RState) : String × Bool :=
  let hdr :=
    twLine s.isTty true ("FAILURES (" ++ decStr s.failures.length ++ ")") ++
    twLine s.isTty false "-----------"
  let (o, ok) := renderFailuresGo fs s.isTty 1 s.failures
  (hdr ++ o, ok)

/-- One collection-error entry, `_render_collection_errors` lines 165-170. -/
def collectionErrorBlock (tty : Bool) (idx : Nat) (e : String × String) : String :=
  twLine tty false "" ++
  twLine tty true (decStr idx ++ ") " ++ e.1) ++
  (if e.2 ≠ "" then
     String.join ((pySplitlines e.2.data).map
       (fun line => twLine tty true ("   " ++ String.mk line)))
   else "")

/-- The enumeration loop of `_render_collection_errors`. -/
def collectionErrorsGo (tty : Bool) : Nat → List (String × String) → String
  | _, [] => ""
  | idx, e :: rest => collectionErrorBlock tty idx e ++ collectionErrorsGo tty (idx + 1) rest

/-- `_render_collection_errors` (lines 160-170). -/
def render_collection_errors (s : RState) : String :=
  twLine s.isTty true ("COLLECTION ERRORS (" ++ decStr s.collectionErrors.length ++ ")") ++
  twLine s.isTty false "-------------------" ++
  collectionErrorsGo s.isTty 1 s.collectionErrors

/-- The overall result label of `_render_summary` line 198, derived solely
from whether the exit status is zero. -/
def resultLabel (exitstatus : Int) : String :=
  if exitstatus = 0 then "✓ PASSED" else "✗ FAILED"

/-- The seven texts `_render_summary` (lines 195-208) passes to
`self._tw.line`, in order; the duration string stands for
`f"{time.time() - self.session_start:.2f}"`. -/
def summaryLines (stats : Stats) (exitstatus : Int) (durStr : String) : List String :=
  [ ""
  , "RESULT   " ++ resultLabel exitstatus ++ " (exit code " ++ decStrInt exitstatus ++ ")"
  , "TOTAL    " ++ decStr (sumStats stats) ++ " tests in " ++ durStr ++ "s"
  , "PASSED   " ++ decStr stats.passed
  , "FAILED   " ++ decStr stats.failed
  , "SKIPPED  " ++ decStr stats.skipped
  , "ERRORS   " ++ decStr stats.error ]

/-- `_render_summary` as written output: the RESULT line carries markup
(`status_color` always sets `bold`), the rest are plain. -/
def render_summary (tty : Bool) (stats : Stats) (exitstatus : Int) (durStr : String) : String :=
  match summaryLines stats exitstatus durStr with
  | [l0, l1, l2, l3, l4, l5, l6] =>
    twLine tty false l0 ++ twLine tty true l1 ++ twLine tty false l2 ++
    twLine tty false l3 ++ twLine tty false l4 ++ twLine tty false l5 ++
    twLine tty false l6
  | _ => ""

/-! ## Session controller -/

/-- `pytest_sessionstart` (lines 36-50): banner (cyan/bold), root and
config lines, then a forced progress render with note `collecting`. -/
def pytest_sessionstart (s : RState) (pyVer pytestVer root cfg : String) : RState × String :=
  let o1 := twLine s.isTty true ("px test  •  Python " ++ pyVer ++ "  •  pytest " ++ pytestVer)
  let o2 := twLine s.isTty false ("root:   " ++ root)
  let o3 := twLine s.isTty false ("config: " ++ cfg)
  let (s1, o4) := render_progress s "collecting" true
  (s1, o1 ++ o2 ++ o3 ++ o4)

/-- `pytest_collection_finish` (lines 52-66): freeze the collected count
and distinct file set, stop the spinner, print the collected line and a
blank line. -/
def pytest_collection_finish (s : RState) (items : List String) (durStr : String) :
    RState × String :=
  let collected := items.length
  let files := pyDedup items
  let s1 := { s with collected := collected, files := files, spinnerActive := false }
  let (s2, o1) := clear_spinner s1 true
  let label := if collected ≠ 1 then "tests" else "test"
  let fileLabel := if files.length ≠ 1 then "files" else "file"
  let o2 := twLine s2.isTty false
    ("collected " ++ decStr collected ++ " " ++ label ++ " from " ++
     decStr files.length ++ " " ++ fileLabel ++ " in " ++ durStr ++ "s")
  let o3 := twLine s2.isTty false ""
  (s2, o1 ++ o2 ++ o3)

/-- `pytest_collectreport` (lines 68-75): on failure count an `error` and
buffer the entry; always refresh the progress line. -/
def pytest_collectreport (s : RState) (fspath : String) (failed : Bool) (summary : String) :
    RState × String :=
  let s1 :=
    if failed then
      { s with stats := incrStat s.stats Status.error
               collectionErrors := s.collectionErrors ++ [(fspath, summary)] }
    else s
  let (s2, o) := render_progress s1 "collecting" false
  (s2, o)

/-- `pytest_sessionfinish` (lines 100-108): record the exit status, stop
the spinner, render failures and collection errors when present, then the
summary. The third component is `false` when rendering a failure raised
(the exception propagates; nothing further is written). -/
def pytest_sessionfinish (fs : String → Option (List String)) (s : RState)
    (exitstatus : Int) (durStr : String) : RState × String × Bool :=
  let s1 := { s with exitstatus := exitstatus, spinnerActive := false }
  let (s2, o1) := clear_spinner s1 true
  let (o2, ok) := if s2.failures ≠ [] then render_failures fs s2 else ("", true)
  if ok then
    let o3 := if s2.collectionErrors ≠ [] then render_collection_errors s2 else ""
    let o4 := render_summary s2.isTty s2.stats exitstatus durStr
    (s2, o1 ++ o2 ++ o3 ++ o4, true)
  else (s2, o1 ++ o2, false)

/-- Dispatch one lifecycle event; the boolean is `false` when the handler
raised. -/
def step (fs : String → Option (List String)) (s : RState) : Event → RState × String × Bool
  | .sessionStart pyVer pytestVer root cfg =>
    let (s', o) := pytest_sessionstart s pyVer pytestVer root cfg
    (s', o, true)
  | .collectionFinish items durStr =>
    let (s', o) := pytest_collection_finish s items durStr
    (s', o, true)
  | .collectReport fspath failed summary =>
    let (s', o) := pytest_collectreport s fspath failed summary
    (s', o, true)
  | .testReport r =>
    let (s', o) := pytest_runtest_logreport s r
    (s', o, true)
  | .sessionFinish exitstatus durStr => pytest_sessionfinish fs s exitstatus durStr

/-- Feed a sequence of events; after a raised handler (which propagates to
the host) no further event reaches the reporter. -/
def runAux (fs : String → Option (List String)) :
    RState × String × Bool → List Event → RState × String × Bool
  | acc, [] => acc
  | (s, out, crashed), ev :: rest =>
    if crashed then (s, out, true)
    else
      let (s', o, ok) := step fs s ev
      runAux fs (s', out ++ o, !ok) rest

/-- A whole run: initial state for the given interactivity, then all
events. Result: final state, the concatenated stdout stream, and whether a
handler raised. -/
def run (tty : Bool) (fs : String → Option (List String)) (evs : List Event) :
    RState × String × Bool :=
  runAux fs (initState tty, "", false) evs

/-- The stdout stream of a run. -/
def runOutput (tty : Bool) (fs : String → Option (List String)) (evs : List Event) : String :=
  (run tty fs evs).2.1

end PxReporter
namespace PxReporter

theorem mem_dropWhile_of_not {p : Char → Bool} {c : Char} :
    ∀ {l : List Char}, c ∈ l → p c = false → c ∈ l.dropWhile p := by
  intro l hc hp
  induction l with
  | nil => cases hc
  | cons d rest ih =>
    by_cases hd : p d
    · rw [List.dropWhile_cons_of_pos hd]
      rcases List.mem_cons.mp hc with h | h
      · subst h; rw [hd] at hp; cases hp
      · exact ih h
    · rw [List.dropWhile_cons_of_neg hd]
      exact hc

theorem pyStrip_ne_nil {c : Char} {l : List Char} (hc : c ∈ l)
    (hp : isPySpace c = false) : pyStrip l ≠ [] := by
  intro h
  unfold pyStrip at h
  have h1 : c ∈ l.dropWhile isPySpace := mem_dropWhile_of_not hc hp
  have h2 : c ∈ (l.dropWhile isPySpace).reverse := List.mem_reverse.mpr h1
  have h3 : c ∈ (l.dropWhile isPySpace).reverse.dropWhile isPySpace :=
    mem_dropWhile_of_not h2 hp
  rw [List.reverse_eq_nil_iff] at h
  rw [h] at h3
  cases h3

theorem splitFirst_single_none {c : Char} :
    ∀ {l : List Char}, c ∉ l → splitFirst [c] l = none := by
  intro l h
  induction l with
  | nil => rfl
  | cons d rest ih =>
    simp only [List.mem_cons, not_or] at h
    have hne : (c = d) = False := by
      simp only [eq_iff_iff, iff_false]
      exact fun hh => h.1 hh
    simp only [splitFirst, isPre, hne, if_false, ih h.2, Option.map_none']
    simp

theorem splitFirst_append_single {c : Char} :
    ∀ {a : List Char} (b : List Char), c ∉ a → splitFirst [c] (a ++ c :: b) = some (a, b) := by
  intro a
  induction a with
  | nil =>
    intro b _
    simp only [List.nil_append, splitFirst, isPre, if_pos]
    simp [isPre]
  | cons d rest ih =>
    intro b h
    simp only [List.mem_cons, not_or] at h
    have hne : (c = d) = False := by
      simp only [eq_iff_iff, iff_false]
      exact fun hh => h.1 hh
    simp only [List.cons_append, splitFirst, isPre, hne, if_false, Option.map_some']
    simp only [Bool.false_eq_true, if_false]
    rw [show rest.append (c :: b) = rest ++ c :: b from rfl, ih b h.2]
    rfl

theorem pySplitGo_of_none {sep l : List Char} (h : splitFirst sep l = none) :
    ∀ fuel, pySplitGo sep fuel l = [l] := by
  intro fuel
  cases fuel with
  | zero => rfl
  | succ n => simp only [pySplitGo, h]

theorem pySplit_of_not_mem {c : Char} {l : List Char} (h : c ∉ l) :
    pySplit [c] l = [l] :=
  pySplitGo_of_none (splitFirst_single_none h) _

theorem pySplit_single_pair {c : Char} {a b : List Char} (ha : c ∉ a) (hb : c ∉ b) :
    pySplit [c] (a ++ c :: b) = [a, b] := by
  unfold pySplit
  have hlen : (a ++ c :: b).length = a.length + b.length + 1 := by
    simp [List.length_append]; omega
  rw [hlen]
  simp only [pySplitGo, splitFirst_append_single b ha]
  rw [pySplitGo_of_none (splitFirst_single_none hb)]

end PxReporter

namespace PxReporter

theorem c5_general (msg : String)
    (h1 : pyIn "did not raise".data (pyLower msg.data) = true)
    (hx : '\n' ∉ pyStrip ((pySplit "DID NOT RAISE".data msg.data).getLastD [])) :
    assertion_explanation (some msg) =
      some [String.mk ("Expected ".data ++
        (if pyStrip ((pySplit "DID NOT RAISE".data msg.data).getLastD []) = []
         then "expected exception".data
         else pyStrip ((pySplit "DID NOT RAISE".data msg.data).getLastD [])) ++
        " to be raised, but none was.".data)] := by
  have hm : msg.data ≠ [] := by
    intro h
    rw [h] at h1
    simp [pyLower, pyIn] at h1
  set x := pyStrip ((pySplit "DID NOT RAISE".data msg.data).getLastD []) with hxdef
  set expected := if x = [] then "expected exception".data else x with hexp
  have hsum : explainTransform msg.data =
      "Expected ".data ++ expected ++ " to be raised, but none was.".data := by
    unfold explainTransform
    simp only [h1, if_true]
  have hnlx : '\n' ∉ expected := by
    rw [hexp]
    by_cases hc : x = []
    · rw [if_pos hc]; decide
    · rw [if_neg hc]; exact hx
  have hnl : '\n' ∉ "Expected ".data ++ expected ++ " to be raised, but none was.".data := by
    intro hmem
    rcases List.mem_append.mp hmem with hmem | hmem
    · rcases List.mem_append.mp hmem with hmem | hmem
      · revert hmem; decide
      · exact hnlx hmem
    · revert hmem; decide
  have hne : ("Expected ".data ++ expected ++ " to be raised, but none was.".data) ≠ [] := by
    have : "Expected ".data = 'E' :: "xpected ".data := rfl
    rw [this]
    simp
  have hE : ('E' : Char) ∈ "Expected ".data ++ expected ++ " to be raised, but none was.".data := by
    apply List.mem_append_left
    apply List.mem_append_left
    decide
  have hstrip : pyStrip ("Expected ".data ++ expected ++ " to be raised, but none was.".data) ≠ [] :=
    pyStrip_ne_nil hE (by decide)
  simp only [assertion_explanation]
  rw [if_neg hm, hsum, if_neg hne, pySplit_of_not_mem hnl,
    List.filter_cons_of_pos (by exact decide_eq_true hstrip)]
  rfl

end PxReporter

namespace PxReporter

theorem pyIn_of_splitFirst_some {sep : List Char} :
    ∀ {l : List Char} {pr : List Char × List Char},
      splitFirst sep l = some pr → pyIn sep l = true := by
  intro l
  induction l with
  | nil => intro pr h; cases h
  | cons c rest ih =>
    intro pr h
    simp only [splitFirst] at h
    by_cases hp : isPre sep (c :: rest) = true
    · simp [pyIn, hp]
    · rw [if_neg hp] at h
      rcases Option.map_eq_some'.mp h with ⟨pr', hpr', _⟩
      have := ih hpr'
      simp [pyIn, this]

theorem c4_general (msg : String) (pre post : List Char)
    (hsp : splitFirst "==".data msg.data = some (pre, post))
    (h0 : pyIn "did not raise".data (pyLower msg.data) = false)
    (h1 : pyIn "assert".data (pyLower msg.data) = true)
    (hleft : pyStrip (pyReplaceOnce "assert".data []
      (pyReplaceAll "AssertionError:".data [] pre)) ≠ [])
    (hnl : '\n' ∉ pyStrip (pyReplaceOnce "assert".data []
      (pyReplaceAll "AssertionError:".data [] pre)))
    (hnr : '\n' ∉ pyStrip post) :
    assertion_explanation (some msg) =
      some [String.mk ("Expected: ".data ++ pyStrip post),
            String.mk ("     Actual:   ".data ++ pyStrip (pyReplaceOnce "assert".data []
              (pyReplaceAll "AssertionError:".data [] pre)))] := by
  have hm : msg.data ≠ [] := by
    intro h
    rw [h] at hsp
    cases hsp
  set left := pyStrip (pyReplaceOnce "assert".data [] (pyReplaceAll "AssertionError:".data [] pre)) with hL
  set right := pyStrip post with hR
  have hin2 : pyIn "==".data msg.data = true := pyIn_of_splitFirst_some hsp
  have hsum : explainTransform msg.data =
      "Expected: ".data ++ right ++ ("\n     Actual:   ".data ++ left) := by
    unfold explainTransform
    simp only [h0, h1, hin2, hsp, Bool.and_self, if_true]
    simp only [Bool.false_eq_true, if_false, if_neg hleft]
  have hassoc : "Expected: ".data ++ right ++ ("\n     Actual:   ".data ++ left) =
      ("Expected: ".data ++ right) ++ ('\n' :: ("     Actual:   ".data ++ left)) := by
    rw [List.append_assoc]
    rfl
  have hnlA : '\n' ∉ "Expected: ".data ++ right := by
    intro hmem
    rcases List.mem_append.mp hmem with hmem | hmem
    · revert hmem; decide
    · exact hnr hmem
  have hnlB : '\n' ∉ "     Actual:   ".data ++ left := by
    intro hmem
    rcases List.mem_append.mp hmem with hmem | hmem
    · revert hmem; decide
    · exact hnl hmem
  have hne : ("Expected: ".data ++ right ++ ("\n     Actual:   ".data ++ left)) ≠ [] := by
    have : "Expected: ".data = 'E' :: "xpected: ".data := rfl
    rw [this]
    simp
  have hstrip1 : pyStrip ("Expected: ".data ++ right) ≠ [] :=
    pyStrip_ne_nil (List.mem_append_left _ (by decide : ('E' : Char) ∈ "Expected: ".data)) (by decide)
  have hstrip2 : pyStrip ("     Actual:   ".data ++ left) ≠ [] :=
    pyStrip_ne_nil (List.mem_append_left _ (by decide : ('A' : Char) ∈ "     Actual:   ".data)) (by decide)
  simp only [assertion_explanation]
  rw [if_neg hm, hsum, if_neg hne, hassoc,
    pySplit_single_pair hnlA hnlB,
    List.filter_cons_of_pos (by exact decide_eq_true hstrip1),
    List.filter_cons_of_pos (by exact decide_eq_true hstrip2)]
  rfl

end PxReporter

namespace PxReporter

theorem print_test_result_stats (s : RState) (f n : String) (st : Status) (d : String) :
    (print_test_result s f n st d).1.stats = s.stats := by
  unfold print_test_result
  split <;> rfl

theorem render_progress_stats (s : RState) (note : String) (force : Bool) :
    (render_progress s note force).1.stats = s.stats := by
  unfold render_progress
  split
  · rfl
  · split <;> rfl

theorem sumStats_incr (st : Stats) (x : Status) :
    sumStats (incrStat st x) = sumStats st + 1 := by
  cases x <;> simp [incrStat, sumStats] <;> omega

theorem logreport_stats_sum (s : RState) (r : Report) :
    sumStats (pytest_runtest_logreport s r).1.stats =
      sumStats s.stats + (if (logreport_status r.when r.outcome).isSome then 1 else 0) := by
  unfold pytest_runtest_logreport
  by_cases hg : r.when = "setup" ∨ r.when = "call" ∨ r.when = "teardown"
  · rw [if_pos hg]
    cases h : logreport_status r.when r.outcome with
    | none =>
      simp only [h]
      split <;> simp
    | some st =>
      simp only [h, Option.isSome_some, if_true]
      split <;> simp [print_test_result_stats, sumStats_incr]
  · rw [if_neg hg]
    have : logreport_status r.when r.outcome = none := by
      unfold logreport_status
      rw [if_neg hg]
    simp [this]

end PxReporter

namespace PxReporter

theorem logreport_stats_incr (s : RState) (r : Report) (st : Status)
    (h : logreport_status r.when r.outcome = some st) :
    (pytest_runtest_logreport s r).1.stats = incrStat s.stats st := by
  have hg : r.when = "setup" ∨ r.when = "call" ∨ r.when = "teardown" := by
    by_contra hg
    unfold logreport_status at h
    rw [if_neg hg] at h
    cases h
  unfold pytest_runtest_logreport
  rw [if_pos hg]
  simp only [h]
  split <;> simp [print_test_result_stats]

def c1Event : Event → Bool
  | .testReport _ => true
  | .collectReport _ failed _ => !failed
  | _ => false

def countTerminal : List Event → Nat
  | [] => 0
  | Event.testReport r :: rest =>
      (if (logreport_status r.when r.outcome).isSome then 1 else 0) + countTerminal rest
  | _ :: rest => countTerminal rest

theorem runAux_c1 (fs : String → Option (List String)) :
    ∀ (evs : List Event) (s : RState) (out : String),
      (∀ ev ∈ evs, c1Event ev = true) →
      sumStats (runAux fs (s, out, false) evs).1.stats = sumStats s.stats + countTerminal evs := by
  intro evs
  induction evs with
  | nil =>
    intro s out _
    simp [runAux, countTerminal]
  | cons ev rest ih =>
    intro s out h
    have hev : c1Event ev = true := h ev (List.mem_cons_self ev rest)
    have hrest : ∀ e ∈ rest, c1Event e = true := fun e he => h e (List.mem_cons_of_mem ev he)
    cases ev with
    | testReport r =>
      rcases hl : pytest_runtest_logreport s r with ⟨s', o⟩
      simp only [runAux, Bool.false_eq_true, if_false, step, hl, Bool.not_true]
      rw [ih s' (out ++ o) hrest]
      have := logreport_stats_sum s r
      rw [hl] at this
      simp only [countTerminal, this]
      omega
    | collectReport p failed summary =>
      have hf : failed = false := by
        simp [c1Event] at hev
        exact hev
      subst hf
      rcases hc : pytest_collectreport s p false summary with ⟨s', o⟩
      simp only [runAux, Bool.false_eq_true, if_false, step, hc, Bool.not_true]
      rw [ih s' (out ++ o) hrest]
      have hstats : s'.stats = s.stats := by
        have : (pytest_collectreport s p false summary).1.stats = s.stats := by
          unfold pytest_collectreport
          simp [render_progress_stats]
        rw [hc] at this
        exact this
      simp only [countTerminal, hstats]
    | sessionStart a b c d => simp [c1Event] at hev
    | collectionFinish a b => simp [c1Event] at hev
    | sessionFinish a b => simp [c1Event] at hev

end PxReporter

namespace PxReporter

theorem load_snippet_mem (lines : List String) (n r i : Int) (t : String) :
    (i, t) ∈ load_snippet lines n r ↔
      max 0 (n - r - 1) < i ∧ i ≤ min (lines.length : Int) (n + r) ∧
      t = pyRstripNl (lines.getD (i - 1).toNat "") := by
  simp only [load_snippet]
  generalize max 0 (n - r - 1) = start
  generalize min (lines.length : Int) (n + r) = stop
  constructor
  · intro hmem
    obtain ⟨k, hk, heq⟩ := List.mem_map.mp hmem
    rw [List.mem_range] at hk
    rw [Prod.mk.injEq] at heq
    obtain ⟨h1, h2⟩ := heq
    refine ⟨by omega, by omega, ?_⟩
    rw [← h2]
    congr 2
    omega
  · rintro ⟨hlt, hle, ht⟩
    refine List.mem_map.mpr ⟨(i - 1 - start).toNat, List.mem_range.mpr (by omega), ?_⟩
    rw [Prod.mk.injEq]
    constructor
    · omega
    · rw [ht]
      congr 2
      omega

end PxReporter

namespace PxReporter

def emptyTextReport : Report :=
  ⟨"call", Outcome.failed, "tests/test_cli.py", 7, "test_cli", "0.00",
   "tests/test_cli.py::test_cli", none, some ""⟩

theorem incrStat_xfailed (st : Stats) (x : Status) :
    (incrStat st x).xfailed = st.xfailed ∧ (incrStat st x).xpassed = st.xpassed := by
  cases x <;> exact ⟨rfl, rfl⟩

theorem clear_spinner_stats (s : RState) (b : Bool) :
    (clear_spinner s b).1.stats = s.stats := by
  unfold clear_spinner
  split
  · rfl
  · split <;> rfl

theorem step_xcounters (fs : String → Option (List String)) (s : RState) (ev : Event) :
    (step fs s ev).1.stats.xfailed = s.stats.xfailed ∧
    (step fs s ev).1.stats.xpassed = s.stats.xpassed := by
  cases ev with
  | sessionStart a b c d =>
    simp only [step, pytest_sessionstart]
    rw [render_progress_stats]
    exact ⟨rfl, rfl⟩
  | collectionFinish items dur =>
    simp only [step, pytest_collection_finish]
    rw [clear_spinner_stats]
    exact ⟨rfl, rfl⟩
  | collectReport p failed summary =>
    simp only [step, pytest_collectreport]
    rw [render_progress_stats]
    split
    · exact incrStat_xfailed s.stats Status.error
    · exact ⟨rfl, rfl⟩
  | testReport r =>
    simp only [step]
    unfold pytest_runtest_logreport
    split
    · cases h : logreport_status r.when r.outcome with
      | none =>
        simp only [h]
        split <;> exact ⟨rfl, rfl⟩
      | some st =>
        simp only [h]
        split <;> (rw [print_test_result_stats]; exact incrStat_xfailed s.stats st)
    · exact ⟨rfl, rfl⟩
  | sessionFinish es dur =>
    have h1 : (pytest_sessionfinish fs s es dur).1 =
        (clear_spinner { s with exitstatus := es, spinnerActive := false } true).1 := by
      unfold pytest_sessionfinish
      rcases h2 : clear_spinner { s with exitstatus := es, spinnerActive := false } true with ⟨s2, o1⟩
      rcases h3 : (if s2.failures ≠ [] then render_failures fs s2 else ("", true)) with ⟨o2, ok⟩
      simp only [h2, h3]
      cases ok <;> simp
    constructor <;> simp [step, h1, clear_spinner_stats]

theorem runAux_xcounters (fs : String → Option (List String)) :
    ∀ (evs : List Event) (s : RState) (out : String) (c : Bool),
      (runAux fs (s, out, c) evs).1.stats.xfailed = s.stats.xfailed ∧
      (runAux fs (s, out, c) evs).1.stats.xpassed = s.stats.xpassed := by
  intro evs
  induction evs with
  | nil => intro s out c; exact ⟨rfl, rfl⟩
  | cons ev rest ih =>
    intro s out c
    cases c with
    | true => simp [runAux]
    | false =>
      rcases hs : step fs s ev with ⟨s', o, ok⟩
      simp only [runAux, Bool.false_eq_true, if_false, hs]
      have hstep := step_xcounters fs s ev
      rw [hs] at hstep
      have hrest := ih s' (out ++ o) (!ok)
      exact ⟨hrest.1.trans hstep.1, hrest.2.trans hstep.2⟩

end PxReporter

namespace PxReporter

def goodChar (c : Char) : Prop := c ≠ '\r' ∧ c ≠ escChar

instance (c : Char) : Decidable (goodChar c) := by unfold goodChar; infer_instance

def cleanL (l : List Char) : Prop := ∀ c ∈ l, goodChar c

instance (l : List Char) : Decidable (cleanL l) := by unfold cleanL; infer_instance

def cleanS (s : String) : Prop := cleanL s.data

instance (s : String) : Decidable (cleanS s) := by unfold cleanS; infer_instance

theorem data_append (a b : String) : (a ++ b).data = a.data ++ b.data := rfl

theorem cleanL_append {l1 l2 : List Char} :
    cleanL (l1 ++ l2) ↔ cleanL l1 ∧ cleanL l2 := by
  unfold cleanL
  exact List.forall_mem_append

theorem cleanS_append {a b : String} : cleanS (a ++ b) ↔ cleanS a ∧ cleanS b := by
  unfold cleanS
  rw [data_append]
  exact cleanL_append

theorem cleanL_of_sub {l l' : List Char} (hsub : ∀ c ∈ l', c ∈ l) (h : cleanL l) :
    cleanL l' := fun c hc => h c (hsub c hc)

theorem mem_splitFirst {sep : List Char} :
    ∀ {l pre post : List Char}, splitFirst sep l = some (pre, post) →
      ∀ c : Char, c ∈ pre ∨ c ∈ post → c ∈ l := by
  intro l
  induction l with
  | nil => intro pre post h; cases h
  | cons d rest ih =>
    intro pre post h c hc
    simp only [splitFirst] at h
    by_cases hp : isPre sep (d :: rest) = true
    · rw [if_pos hp] at h
      rw [Option.some.injEq, Prod.mk.injEq] at h
      obtain ⟨h1, h2⟩ := h
      rcases hc with hc | hc
      · rw [← h1] at hc; cases hc
      · rw [← h2] at hc
        exact List.drop_subset _ _ hc
    · rw [if_neg hp] at h
      rcases Option.map_eq_some'.mp h with ⟨⟨pre', post'⟩, hpr', heq⟩
      rw [Prod.mk.injEq] at heq
      obtain ⟨h1, h2⟩ := heq
      rcases hc with hc | hc
      · rw [← h1] at hc
        rcases List.mem_cons.mp hc with hc | hc
        · exact List.mem_cons.mpr (Or.inl hc)
        · exact List.mem_cons.mpr (Or.inr (ih hpr' c (Or.inl hc)))
      · rw [← h2] at hc
        exact List.mem_cons.mpr (Or.inr (ih hpr' c (Or.inr hc)))

theorem mem_pySplitGo {sep : List Char} :
    ∀ (fuel : Nat) (l part : List Char), part ∈ pySplitGo sep fuel l →
      ∀ c ∈ part, c ∈ l := by
  intro fuel
  induction fuel with
  | zero =>
    intro l part h c hc
    simp only [pySplitGo, List.mem_singleton] at h
    rw [h] at hc
    exact hc
  | succ n ih =>
    intro l part h c hc
    simp only [pySplitGo] at h
    cases hs : splitFirst sep l with
    | none =>
      rw [hs] at h
      simp only [List.mem_singleton] at h
      rw [h] at hc
      exact hc
    | some pr =>
      rcases pr with ⟨pre, post⟩
      rw [hs] at h
      rcases List.mem_cons.mp h with h | h
      · rw [h] at hc
        exact mem_splitFirst hs c (Or.inl hc)
      · exact mem_splitFirst hs c (Or.inr (ih post part h c hc))

theorem mem_pySplit {sep l part : List Char} (h : part ∈ pySplit sep l) :
    ∀ c ∈ part, c ∈ l :=
  mem_pySplitGo l.length l part h

theorem cleanL_pyJoinWith {sep : List Char} (hsep : cleanL sep) :
    ∀ {parts : List (List Char)}, (∀ part ∈ parts, cleanL part) →
      cleanL (pyJoinWith sep parts) := by
  intro parts
  induction parts with
  | nil => intro _; intro c hc; cases hc
  | cons x rest ih =>
    intro h
    cases rest with
    | nil =>
      simpa [pyJoinWith] using h x (List.mem_cons_self x [])
    | cons y rest' =>
      simp only [pyJoinWith]
      rw [cleanL_append, cleanL_append]
      refine ⟨⟨h x (List.mem_cons_self x _), hsep⟩, ?_⟩
      exact ih (fun part hp => h part (List.mem_cons_of_mem x hp))

theorem cleanL_pyReplaceAll {old new l : List Char} (hnew : cleanL new) (hl : cleanL l) :
    cleanL (pyReplaceAll old new l) := by
  unfold pyReplaceAll
  refine cleanL_pyJoinWith hnew ?_
  intro part hp
  exact cleanL_of_sub (mem_pySplit hp) hl

theorem cleanL_pyReplaceOnce {old new l : List Char} (hnew : cleanL new) (hl : cleanL l) :
    cleanL (pyReplaceOnce old new l) := by
  unfold pyReplaceOnce
  cases hs : splitFirst old l with
  | none => exact hl
  | some pr =>
    rcases pr with ⟨pre, post⟩
    rw [cleanL_append, cleanL_append]
    exact ⟨⟨cleanL_of_sub (fun c hc => mem_splitFirst hs c (Or.inl hc)) hl, hnew⟩,
      cleanL_of_sub (fun c hc => mem_splitFirst hs c (Or.inr hc)) hl⟩

theorem mem_pyStrip {l : List Char} : ∀ c ∈ pyStrip l, c ∈ l := by
  intro c hc
  unfold pyStrip at hc
  rw [List.mem_reverse] at hc
  have h1 := List.dropWhile_subset isPySpace hc
  rw [List.mem_reverse] at h1
  exact (List.dropWhile_sublist isPySpace).subset h1

theorem cleanL_pyStrip {l : List Char} (h : cleanL l) : cleanL (pyStrip l) :=
  cleanL_of_sub mem_pyStrip h

theorem cleanS_pyRstripNl {s : String} (h : cleanS s) : cleanS (pyRstripNl s) := by
  unfold pyRstripNl cleanS
  intro c hc
  simp only [String.mk] at hc
  rw [List.mem_reverse] at hc
  have h1 := List.dropWhile_subset (fun c => c = '\n') hc
  rw [List.mem_reverse] at h1
  exact h c h1

end PxReporter

namespace PxReporter

theorem goodChar_decDigitChar (m : Nat) : goodChar (decDigitChar m) := by
  unfold decDigitChar
  split <;> decide

theorem cleanL_decDigitsGo : ∀ (fuel n : Nat), cleanL (decDigitsGo fuel n) := by
  intro fuel
  induction fuel with
  | zero => intro n c hc; cases hc
  | succ k ih =>
    intro n
    cases n with
    | zero => intro c hc; cases hc
    | succ m =>
      simp only [decDigitsGo]
      rw [cleanL_append]
      refine ⟨ih _, ?_⟩
      intro c hc
      rcases List.mem_singleton.mp hc with h
      rw [h]
      exact goodChar_decDigitChar _

theorem cleanS_decStr (n : Nat) : cleanS (decStr n) := by
  unfold decStr
  split
  · decide
  · exact cleanL_decDigitsGo _ _

theorem cleanS_decStrInt (i : Int) : cleanS (decStrInt i) := by
  unfold decStrInt
  split
  · rw [cleanS_append]
    exact ⟨by decide, cleanS_decStr _⟩
  · exact cleanS_decStr _

theorem cleanS_spaces (n : Nat) : cleanS (spaces n) := by
  unfold spaces cleanS
  intro c hc
  simp only [String.mk] at hc
  rw [List.eq_of_mem_replicate hc]
  decide

theorem cleanS_rjust4 {s : String} (h : cleanS s) : cleanS (rjust4 s) := by
  unfold rjust4
  rw [cleanS_append]
  exact ⟨cleanS_spaces _, h⟩

theorem twLine_false (m : Bool) (text : String) : twLine false m text = text ++ "\n" := by
  simp [twLine]

theorem cleanS_twLine_false {m : Bool} {text : String} (h : cleanS text) :
    cleanS (twLine false m text) := by
  rw [twLine_false, cleanS_append]
  exact ⟨h, by decide⟩

theorem cleanS_foldl_append {parts : List String} :
    ∀ {acc : String}, cleanS acc → (∀ s ∈ parts, cleanS s) →
      cleanS (parts.foldl (fun r s => r ++ s) acc) := by
  induction parts with
  | nil => intro acc hacc _; exact hacc
  | cons p rest ih =>
    intro acc hacc h
    simp only [List.foldl_cons]
    exact ih (cleanS_append.mpr ⟨hacc, h p (List.mem_cons_self p rest)⟩)
      (fun s hs => h s (List.mem_cons_of_mem p hs))

theorem cleanS_join {parts : List String} (h : ∀ s ∈ parts, cleanS s) :
    cleanS (String.join parts) :=
  cleanS_foldl_append (by decide) h

theorem pySplitGo_ne_nil (sep : List Char) :
    ∀ (fuel : Nat) (l : List Char), pySplitGo sep fuel l ≠ [] := by
  intro fuel l
  cases fuel with
  | zero => simp [pySplitGo]
  | succ n =>
    simp only [pySplitGo]
    cases splitFirst sep l with
    | none => simp
    | some pr => rcases pr with ⟨pre, post⟩; simp

theorem mem_getLastD {α : Type} : ∀ (l : List α) (d : α), l ≠ [] → l.getLastD d ∈ l := by
  intro l
  induction l with
  | nil => intro d h; exact absurd rfl h
  | cons x rest ih =>
    intro d _
    cases rest with
    | nil => simp [List.getLastD]
    | cons y rest' =>
      rw [List.getLastD_cons]
      exact List.mem_cons_of_mem x (ih x (by simp))

theorem getD_mem_or_default {α : Type} : ∀ (l : List α) (k : Nat) (d : α),
    l.getD k d ∈ l ∨ l.getD k d = d := by
  intro l
  induction l with
  | nil => intro k d; right; cases k <;> rfl
  | cons x rest ih =>
    intro k d
    cases k with
    | zero => left; exact List.mem_cons_self x rest
    | succ j =>
      rcases ih j d with h | h
      · left
        simp only [List.getD_cons_succ]
        exact List.mem_cons_of_mem x h
      · right
        simp only [List.getD_cons_succ]
        exact h

end PxReporter

namespace PxReporter

theorem mem_pySplitlinesGo :
    ∀ (acc l part : List Char), part ∈ pySplitlinesGo acc l →
      ∀ c ∈ part, c ∈ acc ∨ c ∈ l := by
  intro acc l
  induction acc, l using pySplitlinesGo.induct with
  | case1 acc hacc =>
    intro part h c hc
    rw [pySplitlinesGo.eq_1, if_pos hacc] at h
    cases h
  | case2 acc hacc =>
    intro part h c hc
    rw [pySplitlinesGo.eq_1, if_neg hacc] at h
    rw [List.mem_singleton] at h
    rw [h] at hc
    exact Or.inl (List.mem_reverse.mp hc)
  | case3 acc rest ih =>
    intro part h c hc
    rw [pySplitlinesGo.eq_2] at h
    rcases List.mem_cons.mp h with h | h
    · rw [h] at hc
      exact Or.inl (List.mem_reverse.mp hc)
    · rcases ih part h c hc with h' | h'
      · cases h'
      · exact Or.inr (List.mem_cons.mpr (Or.inr (List.mem_cons.mpr (Or.inr h'))))
  | case4 acc rest hne ih =>
    intro part h c hc
    rw [pySplitlinesGo.eq_3 acc rest hne] at h
    rcases List.mem_cons.mp h with h | h
    · rw [h] at hc
      exact Or.inl (List.mem_reverse.mp hc)
    · rcases ih part h c hc with h' | h'
      · cases h'
      · exact Or.inr (List.mem_cons.mpr (Or.inr h'))
  | case5 acc rest ih =>
    intro part h c hc
    rw [pySplitlinesGo.eq_4] at h
    rcases List.mem_cons.mp h with h | h
    · rw [h] at hc
      exact Or.inl (List.mem_reverse.mp hc)
    · rcases ih part h c hc with h' | h'
      · cases h'
      · exact Or.inr (List.mem_cons.mpr (Or.inr h'))
  | case6 acc d rest hne1 hne2 hne3 ih =>
    intro part h c hc
    rw [pySplitlinesGo.eq_5 acc d rest hne1 hne2 hne3] at h
    rcases ih part h c hc with h' | h'
    · rcases List.mem_cons.mp h' with h'' | h''
      · rw [h'']
        exact Or.inr (List.mem_cons.mpr (Or.inl rfl))
      · exact Or.inl h''
    · exact Or.inr (List.mem_cons.mpr (Or.inr h'))

theorem mem_pySplitlines {l part : List Char} (h : part ∈ pySplitlines l) :
    ∀ c ∈ part, c ∈ l := by
  intro c hc
  rcases mem_pySplitlinesGo [] l part h c hc with h' | h'
  · cases h'
  · exact h'

end PxReporter

namespace PxReporter

def optClean {α : Type} (P : α → Prop) : Option α → Prop
  | some x => P x
  | none => True

instance {α : Type} (P : α → Prop) [DecidablePred P] : ∀ o, Decidable (optClean P o) :=
  fun o => by cases o <;> (unfold optClean; infer_instance)

def crashClean (c : Crash) : Prop := cleanS c.message ∧ cleanS c.path

instance (c : Crash) : Decidable (crashClean c) := by unfold crashClean; infer_instance

def longreprClean : LongreprV → Prop
  | .obj rc txt => optClean crashClean rc ∧ cleanS txt
  | .str s => cleanS s

instance (lr : LongreprV) : Decidable (longreprClean lr) := by
  cases lr <;> (unfold longreprClean; infer_instance)

def reportClean (r : Report) : Prop :=
  cleanS r.nodeid ∧ cleanS r.locPath ∧ cleanS r.locName ∧ cleanS r.durationStr ∧
  optClean longreprClean r.longrepr ∧ optClean cleanS r.longreprtext

instance (r : Report) : Decidable (reportClean r) := by unfold reportClean; infer_instance

theorem cleanL_nil : cleanL [] := fun c hc => absurd hc (List.not_mem_nil c)

theorem explainTransform_clean {m : List Char} (hm : cleanL m) :
    cleanL (explainTransform m) := by
  unfold explainTransform
  simp only []
  by_cases h1 : pyIn "did not raise".data (pyLower m) = true
  · rw [if_pos h1]
    rw [cleanL_append, cleanL_append]
    refine ⟨⟨by decide, ?_⟩, by decide⟩
    split
    · decide
    · refine cleanL_pyStrip (cleanL_of_sub ?_ hm)
      intro c hc
      exact mem_pySplit (mem_getLastD _ [] (pySplitGo_ne_nil _ _ _)) c hc
  · rw [if_neg h1]
    by_cases h2 : (pyIn "assert".data (pyLower m) && pyIn "==".data m) = true
    · rw [if_pos h2]
      cases heq : splitFirst "==".data m with
      | none => exact hm
      | some pr =>
        rcases pr with ⟨pre, post⟩
        rw [cleanL_append]
        have hpre : cleanL pre :=
          cleanL_of_sub (fun c hc => mem_splitFirst heq c (Or.inl hc)) hm
        have hpost : cleanL post :=
          cleanL_of_sub (fun c hc => mem_splitFirst heq c (Or.inr hc)) hm
        refine ⟨cleanL_append.mpr ⟨by decide, cleanL_pyStrip hpost⟩, ?_⟩
        split
        · exact cleanL_nil
        · rw [cleanL_append]
          exact ⟨by decide, cleanL_pyStrip (cleanL_pyReplaceOnce cleanL_nil
            (cleanL_pyReplaceAll cleanL_nil hpre))⟩
    · rw [if_neg h2]
      exact cleanL_pyStrip (cleanL_pyReplaceAll cleanL_nil hm)

theorem assertion_explanation_clean {cm : Option String} (hcm : optClean cleanS cm)
    {lines : List String} (h : assertion_explanation cm = some lines) :
    ∀ t ∈ lines, cleanS t := by
  cases cm with
  | none =>
    unfold assertion_explanation at h
    simp at h
  | some m =>
    unfold assertion_explanation at h
    simp only [] at h
    by_cases hd : m.data = []
    · rw [if_pos hd] at h
      simp at h
    · rw [if_neg hd] at h
      have hclean : cleanL (explainTransform m.data) := explainTransform_clean hcm
      by_cases hs : explainTransform m.data = []
      · rw [if_pos hs] at h
        cases h
      · rw [if_neg hs] at h
        rw [Option.some.injEq] at h
        rw [← h]
        intro t ht
        obtain ⟨part, hpart, heq⟩ := List.mem_map.mp ht
        rw [← heq]
        have hpart2 : part ∈ pySplit ['\n'] (explainTransform m.data) :=
          List.mem_of_mem_filter hpart
        exact cleanL_of_sub (mem_pySplit hpart2) hclean

theorem failure_message_clean {r : Report} (hr : reportClean r) {msg : String}
    (h : failure_message r = Except.ok msg) : cleanS msg := by
  obtain ⟨-, -, -, -, hlr, htxt⟩ := hr
  unfold failure_message at h
  cases hr1 : r.longrepr with
  | some lr =>
    rw [hr1] at h hlr
    cases lr with
    | obj rc txt =>
      cases rc with
      | some c =>
        simp only [] at h
        simp only [Except.ok.injEq] at h
        rw [← h]
        exact hlr.1.1
      | none =>
        simp only [] at h
        cases hr2 : r.longreprtext with
        | some t =>
          rw [hr2] at h htxt
          simp only [] at h
          cases hsp : pySplitlines t.data with
          | nil => rw [hsp] at h; cases h
          | cons l rest =>
            rw [hsp] at h
            simp only [Except.ok.injEq] at h
            rw [← h]
            refine cleanL_of_sub ?_ htxt
            intro c hc
            refine mem_pySplitlines ?_ c hc
            rw [hsp]
            exact List.mem_cons_self l rest
        | none =>
          rw [hr2] at h htxt
          simp only [] at h
          simp only [Except.ok.injEq] at h
          rw [← h]
          exact hlr.2
    | str s =>
      simp only [] at h
      cases hr2 : r.longreprtext with
      | some t =>
        rw [hr2] at h htxt
        simp only [] at h
        cases hsp : pySplitlines t.data with
        | nil => rw [hsp] at h; cases h
        | cons l rest =>
          rw [hsp] at h
          simp only [Except.ok.injEq] at h
          rw [← h]
          refine cleanL_of_sub ?_ htxt
          intro c hc
          refine mem_pySplitlines ?_ c hc
          rw [hsp]
          exact List.mem_cons_self l rest
      | none =>
        rw [hr2] at h htxt
        simp only [] at h
        by_cases hse : s = ""
        · rw [if_pos hse] at h
          simp only [Except.ok.injEq] at h
          rw [← h]
          decide
        · rw [if_neg hse] at h
          simp only [Except.ok.injEq] at h
          rw [← h]
          exact hlr
  | none =>
    rw [hr1] at h
    simp only [] at h
    cases hr2 : r.longreprtext with
    | some t =>
      rw [hr2] at h htxt
      simp only [] at h
      cases hsp : pySplitlines t.data with
      | nil => rw [hsp] at h; cases h
      | cons l rest =>
        rw [hsp] at h
        simp only [Except.ok.injEq] at h
        rw [← h]
        refine cleanL_of_sub ?_ htxt
        intro c hc
        refine mem_pySplitlines ?_ c hc
        rw [hsp]
        exact List.mem_cons_self l rest
    | none =>
      rw [hr2] at h
      simp only [] at h
      simp only [Except.ok.injEq] at h
      rw [← h]
      decide

end PxReporter

namespace PxReporter

def eventClean : Event → Prop
  | .sessionStart a b c d => cleanS a ∧ cleanS b ∧ cleanS c ∧ cleanS d
  | .collectionFinish items dur => (∀ s ∈ items, cleanS s) ∧ cleanS dur
  | .collectReport p _ summary => cleanS p ∧ cleanS summary
  | .testReport r => reportClean r
  | .sessionFinish _ dur => cleanS dur

instance (ev : Event) : Decidable (eventClean ev) := by
  cases ev <;> (unfold eventClean; infer_instance)

def stateClean (s : RState) : Prop :=
  (∀ r ∈ s.failures, reportClean r) ∧ (∀ e ∈ s.collectionErrors, cleanS e.1 ∧ cleanS e.2)

def fsClean (fs : String → Option (List String)) : Prop :=
  ∀ p lines, fs p = some lines → ∀ t ∈ lines, cleanS t

theorem load_snippet_clean {lines : List String} (hl : ∀ t ∈ lines, cleanS t)
    {lineno context : Int} {row : Int × String}
    (h : row ∈ load_snippet lines lineno context) : cleanS row.2 := by
  simp only [load_snippet] at h
  obtain ⟨k, _, heq⟩ := List.mem_map.mp h
  rw [← heq]
  rcases getD_mem_or_default lines (max 0 (lineno - context - 1) + (k : Int)).toNat ""
    with hmem | hdef
  · exact cleanS_pyRstripNl (hl _ hmem)
  · show cleanS (pyRstripNl (lines.getD _ ""))
    rw [hdef]
    decide

theorem cleanS_snippetPointer (i lineno : Int) : cleanS (snippetPointer i lineno) := by
  unfold snippetPointer
  split <;> decide

theorem cleanS_snippetRow {lineno : Int} {row : Int × String} (h : cleanS row.2) :
    cleanS (snippetRow lineno row) := by
  unfold snippetRow
  rw [cleanS_append, cleanS_append, cleanS_append, cleanS_append]
  exact ⟨⟨⟨⟨by decide, cleanS_snippetPointer _ _⟩, cleanS_rjust4 (cleanS_decStrInt _)⟩,
    by decide⟩, h⟩

theorem render_single_failure_clean {fs : String → Option (List String)} (hfs : fsClean fs)
    {idx : Nat} {r : Report} (hr : reportClean r) :
    cleanS (render_single_failure fs false idx r).1 := by
  have hhead : cleanS (twLine false false "" ++
      twLine false true (decStr idx ++ ") " ++ r.nodeid) ++ twLine false false "") := by
    rw [cleanS_append, cleanS_append]
    refine ⟨⟨cleanS_twLine_false (by decide), cleanS_twLine_false ?_⟩,
      cleanS_twLine_false (by decide)⟩
    rw [cleanS_append, cleanS_append]
    exact ⟨⟨cleanS_decStr _, by decide⟩, hr.1⟩
  unfold render_single_failure
  cases hm : failure_message r with
  | error e => exact hhead
  | ok message =>
    simp only []
    have hmsg : cleanS message := failure_message_clean hr hm
    have hmsgOut : cleanS (if message ≠ "" then
        twLine false true ("   " ++ message) ++ twLine false false "" else "") := by
      split
      · rw [cleanS_append]
        refine ⟨cleanS_twLine_false ?_, cleanS_twLine_false (by decide)⟩
        rw [cleanS_append]
        exact ⟨by decide, hmsg⟩
      · decide
    have hplpath : cleanS (failure_lineno r).1 := by
      unfold failure_lineno
      obtain ⟨-, hlp, -, -, hlr, -⟩ := hr
      cases h1 : r.longrepr with
      | none => exact hlp
      | some lr =>
        cases lr with
        | obj rc txt =>
          cases rc with
          | some c =>
            rw [h1] at hlr
            exact hlr.1.2
          | none => exact hlp
        | str s => exact hlp
    have hsnip : cleanS (match fs (failure_lineno r).1 with
        | none => ""
        | some lines =>
          let snippet := load_snippet lines (failure_lineno r).2 2
          if snippet = [] then ""
          else
            twLine false false ("   " ++ (failure_lineno r).1 ++ ":" ++
              decStrInt (failure_lineno r).2) ++
            String.join (snippet.map (fun row =>
              twLine false false (snippetRow (failure_lineno r).2 row))) ++
            twLine false false "") := by
      cases hfile : fs (failure_lineno r).1 with
      | none =>
        show cleanS ""
        decide
      | some lines =>
        simp only []
        have hlines := hfs _ _ hfile
        split
        · show cleanS ""
          decide
        · rw [cleanS_append, cleanS_append]
          refine ⟨⟨cleanS_twLine_false ?_, cleanS_join ?_⟩, cleanS_twLine_false (by decide)⟩
          · rw [cleanS_append, cleanS_append, cleanS_append]
            exact ⟨⟨⟨by decide, hplpath⟩, by decide⟩, cleanS_decStrInt _⟩
          · intro t ht
            obtain ⟨row, hrow, heq⟩ := List.mem_map.mp ht
            rw [← heq]
            exact cleanS_twLine_false (cleanS_snippetRow (load_snippet_clean hlines hrow))
    have hexpl : cleanS (match assertion_explanation (crashMsg r) with
        | none => ""
        | some [] => ""
        | some lines =>
          twLine false false "   Explanation:" ++
          String.join (lines.map (fun line => twLine false false ("     " ++ line)))) := by
      have hcm : optClean cleanS (crashMsg r) := by
        unfold crashMsg
        obtain ⟨-, -, -, -, hlr, -⟩ := hr
        cases h1 : r.longrepr with
        | none => exact trivial
        | some lr =>
          cases lr with
          | obj rc txt =>
            cases rc with
            | some c =>
              rw [h1] at hlr
              exact hlr.1.1
            | none => exact trivial
          | str s => exact trivial
      cases hae : assertion_explanation (crashMsg r) with
      | none =>
        show cleanS ""
        decide
      | some lines =>
        cases lines with
        | nil =>
          show cleanS ""
          decide
        | cons l0 rest =>
          simp only []
          rw [cleanS_append]
          refine ⟨cleanS_twLine_false (by decide), cleanS_join ?_⟩
          intro t ht
          obtain ⟨line, hline, heq⟩ := List.mem_map.mp ht
          rw [← heq]
          refine cleanS_twLine_false ?_
          rw [cleanS_append]
          refine ⟨by decide, ?_⟩
          exact assertion_explanation_clean hcm hae line hline
    rw [cleanS_append, cleanS_append, cleanS_append]
    exact ⟨⟨⟨hhead, hmsgOut⟩, hsnip⟩, hexpl⟩

end PxReporter

namespace PxReporter

theorem renderFailuresGo_clean {fs : String → Option (List String)} (hfs : fsClean fs) :
    ∀ (rs : List Report) (idx : Nat), (∀ r ∈ rs, reportClean r) →
      cleanS (renderFailuresGo fs false idx rs).1 := by
  intro rs
  induction rs with
  | nil =>
    intro idx _
    show cleanS ""
    decide
  | cons r rest ih =>
    intro idx h
    have hr : reportClean r := h r (List.mem_cons_self r rest)
    have hrest : ∀ x ∈ rest, reportClean x := fun x hx => h x (List.mem_cons_of_mem r hx)
    simp only [renderFailuresGo]
    rcases h1 : render_single_failure fs false idx r with ⟨o, ok⟩
    have ho : cleanS o := by
      have := @render_single_failure_clean fs hfs idx r hr
      rw [h1] at this
      exact this
    cases ok with
    | true =>
      simp only [if_true]
      rcases h2 : renderFailuresGo fs false (idx + 1) rest with ⟨o', ok'⟩
      have ho' : cleanS o' := by
        have := ih (idx + 1) hrest
        rw [h2] at this
        exact this
      simp only []
      rw [cleanS_append]
      exact ⟨ho, ho'⟩
    | false =>
      simp only [Bool.false_eq_true, if_false]
      exact ho

theorem render_failures_clean {fs : String → Option (List String)} (hfs : fsClean fs)
    {s : RState} (htty : s.isTty = false) (hst : ∀ r ∈ s.failures, reportClean r) :
    cleanS (render_failures fs s).1 := by
  unfold render_failures
  rw [htty]
  rcases h1 : renderFailuresGo fs false 1 s.failures with ⟨o, ok⟩
  have ho : cleanS o := by
    have := renderFailuresGo_clean hfs s.failures 1 hst
    rw [h1] at this
    exact this
  simp only []
  rw [cleanS_append, cleanS_append]
  refine ⟨⟨cleanS_twLine_false ?_, cleanS_twLine_false (by decide)⟩, ho⟩
  rw [cleanS_append, cleanS_append]
  exact ⟨⟨by decide, cleanS_decStr _⟩, by decide⟩

theorem collectionErrorBlock_clean {idx : Nat} {e : String × String}
    (he : cleanS e.1 ∧ cleanS e.2) : cleanS (collectionErrorBlock false idx e) := by
  unfold collectionErrorBlock
  rw [cleanS_append, cleanS_append]
  refine ⟨⟨cleanS_twLine_false (by decide), cleanS_twLine_false ?_⟩, ?_⟩
  · rw [cleanS_append, cleanS_append]
    exact ⟨⟨cleanS_decStr _, by decide⟩, he.1⟩
  · split
    · refine cleanS_join ?_
      intro t ht
      obtain ⟨line, hline, heq⟩ := List.mem_map.mp ht
      rw [← heq]
      refine cleanS_twLine_false ?_
      rw [cleanS_append]
      refine ⟨by decide, ?_⟩
      exact cleanL_of_sub (mem_pySplitlines hline) he.2
    · decide

theorem collectionErrorsGo_clean :
    ∀ (es : List (String × String)) (idx : Nat), (∀ e ∈ es, cleanS e.1 ∧ cleanS e.2) →
      cleanS (collectionErrorsGo false idx es) := by
  intro es
  induction es with
  | nil =>
    intro idx _
    show cleanS ""
    decide
  | cons e rest ih =>
    intro idx h
    simp only [collectionErrorsGo]
    rw [cleanS_append]
    exact ⟨collectionErrorBlock_clean (h e (List.mem_cons_self e rest)),
      ih (idx + 1) (fun x hx => h x (List.mem_cons_of_mem e hx))⟩

theorem render_collection_errors_clean {s : RState} (htty : s.isTty = false)
    (hst : ∀ e ∈ s.collectionErrors, cleanS e.1 ∧ cleanS e.2) :
    cleanS (render_collection_errors s) := by
  unfold render_collection_errors
  rw [htty]
  rw [cleanS_append, cleanS_append]
  refine ⟨⟨cleanS_twLine_false ?_, cleanS_twLine_false (by decide)⟩,
    collectionErrorsGo_clean s.collectionErrors 1 hst⟩
  rw [cleanS_append, cleanS_append]
  exact ⟨⟨by decide, cleanS_decStr _⟩, by decide⟩

theorem cleanS_resultLabel (es : Int) : cleanS (resultLabel es) := by
  unfold resultLabel
  split <;> decide

theorem summaryLines_clean {stats : Stats} {es : Int} {d : String} (hd : cleanS d) :
    ∀ t ∈ summaryLines stats es d, cleanS t := by
  intro t ht
  unfold summaryLines at ht
  simp only [List.mem_cons, List.mem_singleton] at ht
  rcases ht with h | h | h | h | h | h | h | h
  · rw [h]; decide
  · rw [h]
    rw [cleanS_append, cleanS_append, cleanS_append, cleanS_append]
    exact ⟨⟨⟨⟨by decide, cleanS_resultLabel _⟩, by decide⟩, cleanS_decStrInt _⟩, by decide⟩
  · rw [h]
    rw [cleanS_append, cleanS_append, cleanS_append, cleanS_append]
    exact ⟨⟨⟨⟨by decide, cleanS_decStr _⟩, by decide⟩, hd⟩, by decide⟩
  · rw [h]; rw [cleanS_append]; exact ⟨by decide, cleanS_decStr _⟩
  · rw [h]; rw [cleanS_append]; exact ⟨by decide, cleanS_decStr _⟩
  · rw [h]; rw [cleanS_append]; exact ⟨by decide, cleanS_decStr _⟩
  · rw [h]; rw [cleanS_append]; exact ⟨by decide, cleanS_decStr _⟩
  · cases h

theorem render_summary_clean {stats : Stats} {es : Int} {d : String} (hd : cleanS d) :
    cleanS (render_summary false stats es d) := by
  unfold render_summary
  have h := @summaryLines_clean stats es d hd
  simp only [summaryLines] at h ⊢
  rw [cleanS_append, cleanS_append, cleanS_append, cleanS_append, cleanS_append,
    cleanS_append]
  refine ⟨⟨⟨⟨⟨⟨cleanS_twLine_false ?_, cleanS_twLine_false ?_⟩, cleanS_twLine_false ?_⟩,
    cleanS_twLine_false ?_⟩, cleanS_twLine_false ?_⟩, cleanS_twLine_false ?_⟩,
    cleanS_twLine_false ?_⟩ <;> simp_all

end PxReporter

namespace PxReporter

theorem render_progress_false {s : RState} (h : s.isTty = false) (note : String)
    (force : Bool) : render_progress s note force = (s, "") := by
  unfold render_progress
  rw [h]
  rfl

theorem clear_spinner_false {s : RState} (h : s.isTty = false) (b : Bool) :
    clear_spinner s b = (s, "") := by
  unfold clear_spinner
  rw [h]
  rfl

theorem cleanS_status_icon (st : Status) : cleanS (status_icon st) := by
  cases st <;> decide

theorem print_test_result_parts (s : RState) (f n : String) (st : Status) (d : String) :
    (print_test_result s f n st d).1.failures = s.failures ∧
    (print_test_result s f n st d).1.collectionErrors = s.collectionErrors ∧
    (print_test_result s f n st d).1.isTty = s.isTty := by
  unfold print_test_result
  split <;> exact ⟨rfl, rfl, rfl⟩

theorem print_test_result_clean {s : RState} (htty : s.isTty = false) {f n : String}
    (hf : cleanS f) (hn : cleanS n) (st : Status) {d : String} (hd : cleanS d) :
    cleanS (print_test_result s f n st d).2 := by
  unfold print_test_result
  rw [htty]
  simp only []
  rw [cleanS_append]
  constructor
  · split
    · rw [cleanS_append]
      exact ⟨cleanS_twLine_false (by decide), cleanS_twLine_false hf⟩
    · decide
  · refine cleanS_twLine_false ?_
    rw [cleanS_append, cleanS_append, cleanS_append, cleanS_append, cleanS_append,
      cleanS_append]
    exact ⟨⟨⟨⟨⟨⟨by decide, cleanS_status_icon st⟩, by decide⟩, hn⟩, by decide⟩, hd⟩,
      by decide⟩

theorem step_clean {fs : String → Option (List String)} (hfs : fsClean fs) {s : RState}
    (htty : s.isTty = false) (hst : stateClean s) {ev : Event} (hev : eventClean ev) :
    cleanS (step fs s ev).2.1 ∧ stateClean (step fs s ev).1 ∧
      (step fs s ev).1.isTty = false := by
  obtain ⟨hfail, hcoll⟩ := hst
  cases ev with
  | sessionStart a b c d =>
    obtain ⟨ha, hb, hc, hd⟩ := hev
    simp only [step, pytest_sessionstart, render_progress_false htty]
    refine ⟨?_, ⟨hfail, hcoll⟩, htty⟩
    rw [htty]
    rw [cleanS_append, cleanS_append, cleanS_append]
    refine ⟨⟨⟨cleanS_twLine_false ?_, cleanS_twLine_false ?_⟩, cleanS_twLine_false ?_⟩,
      by decide⟩
    · rw [cleanS_append, cleanS_append, cleanS_append]
      exact ⟨⟨⟨by decide, ha⟩, by decide⟩, hb⟩
    · rw [cleanS_append]
      exact ⟨by decide, hc⟩
    · rw [cleanS_append]
      exact ⟨by decide, hd⟩
  | collectionFinish items dur =>
    obtain ⟨hitems, hdur⟩ := hev
    have htty1 : ({ s with collected := items.length, files := pyDedup items, spinnerActive := false } : RState).isTty = false := htty
    simp only [step, pytest_collection_finish, clear_spinner_false htty1, htty1]
    refine ⟨?_, ⟨hfail, hcoll⟩, trivial⟩
    rw [cleanS_append, cleanS_append]
    refine ⟨⟨by decide, cleanS_twLine_false ?_⟩, cleanS_twLine_false (by decide)⟩
    rw [cleanS_append, cleanS_append, cleanS_append, cleanS_append, cleanS_append,
      cleanS_append, cleanS_append, cleanS_append, cleanS_append, cleanS_append]
    exact ⟨⟨⟨⟨⟨⟨⟨⟨⟨⟨by decide, cleanS_decStr _⟩, by decide⟩, by split <;> decide⟩,
      by decide⟩, cleanS_decStr _⟩, by decide⟩, by split <;> decide⟩, by decide⟩,
      hdur⟩, by decide⟩
  | collectReport p failed summary =>
    obtain ⟨hp, hsum⟩ := hev
    cases failed with
    | false =>
      simp only [step, pytest_collectreport, Bool.false_eq_true, if_false,
        render_progress_false htty]
      exact ⟨(show cleanS "" by decide), ⟨hfail, hcoll⟩, htty⟩
    | true =>
      have htty1 : ({ s with stats := incrStat s.stats Status.error, collectionErrors := s.collectionErrors ++ [(p, summary)] } : RState).isTty = false := htty
      simp only [step, pytest_collectreport, if_true, render_progress_false htty1]
      refine ⟨(show cleanS "" by decide), ⟨hfail, ?_⟩, htty⟩
      intro e he
      rcases List.mem_append.mp he with he | he
      · exact hcoll e he
      · rw [List.mem_singleton] at he
        rw [he]
        exact ⟨hp, hsum⟩
  | testReport r =>
    have hrep : reportClean r := hev
    simp only [step]
    unfold pytest_runtest_logreport
    by_cases hg : r.when = "setup" ∨ r.when = "call" ∨ r.when = "teardown"
    · rw [if_pos hg]
      cases hls : logreport_status r.when r.outcome with
      | none =>
        simp only []
        split
        · rename_i hout
          refine ⟨(show cleanS "" by decide), ⟨?_, hcoll⟩, htty⟩
          intro x hx
          rcases List.mem_append.mp hx with hx | hx
          · exact hfail x hx
          · rw [List.mem_singleton] at hx
            rw [hx]
            exact hrep
        · exact ⟨(show cleanS "" by decide), ⟨hfail, hcoll⟩, htty⟩
      | some st =>
        simp only []
        rcases hpr : print_test_result { s with stats := incrStat s.stats st } r.locPath r.locName st r.durationStr with ⟨s1, o⟩
        have hparts := print_test_result_parts { s with stats := incrStat s.stats st } r.locPath r.locName st r.durationStr
        rw [hpr] at hparts
        obtain ⟨hp1, hp2, hp3⟩ := hparts
        have ho : cleanS o := by
          have := @print_test_result_clean { s with stats := incrStat s.stats st }
            htty r.locPath r.locName hrep.2.1 hrep.2.2.1 st r.durationStr hrep.2.2.2.1
          rw [hpr] at this
          exact this
        split
        · rename_i hout
          refine ⟨ho, ⟨?_, ?_⟩, hp3.trans htty⟩
          · intro x hx
            rw [hp1] at hx
            rcases List.mem_append.mp hx with hx | hx
            · exact hfail x hx
            · rw [List.mem_singleton] at hx
              rw [hx]
              exact hrep
          · rw [hp2]
            exact hcoll
        · exact ⟨ho, ⟨by rw [hp1]; exact hfail, by rw [hp2]; exact hcoll⟩, hp3.trans htty⟩
    · rw [if_neg hg]
      exact ⟨(show cleanS "" by decide), ⟨hfail, hcoll⟩, htty⟩
  | sessionFinish es dur =>
    have hdur : cleanS dur := hev
    have htty1 : ({ s with exitstatus := es, spinnerActive := false } : RState).isTty = false := htty
    simp only [step, pytest_sessionfinish, clear_spinner_false htty1, htty1]
    by_cases hne : ({ s with exitstatus := es, spinnerActive := false } : RState).failures ≠ []
    · rw [if_pos hne]
      rcases hrf : render_failures fs { s with exitstatus := es, spinnerActive := false } with ⟨o2, ok⟩
      have ho2 : cleanS o2 := by
        have := @render_failures_clean fs hfs { s with exitstatus := es, spinnerActive := false } htty1 hfail
        rw [hrf] at this
        exact this
      cases ok with
      | true =>
        rw [if_pos (show ((o2, true) : String × Bool).2 = true from rfl)]
        refine ⟨?_, ⟨hfail, hcoll⟩, htty⟩
        rw [cleanS_append, cleanS_append, cleanS_append]
        refine ⟨⟨⟨by decide, ho2⟩, ?_⟩, render_summary_clean hdur⟩
        split
        · exact render_collection_errors_clean htty1 hcoll
        · decide
      | false =>
        rw [if_neg (show ¬ ((o2, false) : String × Bool).2 = true from fun h => Bool.noConfusion h)]
        refine ⟨?_, ⟨hfail, hcoll⟩, htty⟩
        rw [cleanS_append]
        exact ⟨by decide, ho2⟩
    · rw [if_neg hne]
      rw [if_pos (show (("", true) : String × Bool).2 = true from rfl)]
      refine ⟨?_, ⟨hfail, hcoll⟩, htty⟩
      rw [cleanS_append, cleanS_append, cleanS_append]
      refine ⟨⟨⟨by decide, by decide⟩, ?_⟩, render_summary_clean hdur⟩
      split
      · exact render_collection_errors_clean htty1 hcoll
      · decide

end PxReporter

namespace PxReporter

theorem runAux_clean {fs : String → Option (List String)} (hfs : fsClean fs) :
    ∀ (evs : List Event) (s : RState) (out : String) (c : Bool),
      (∀ ev ∈ evs, eventClean ev) → s.isTty = false → stateClean s → cleanS out →
      cleanS (runAux fs (s, out, c) evs).2.1 := by
  intro evs
  induction evs with
  | nil => intro s out c _ _ _ hout; exact hout
  | cons ev rest ih =>
    intro s out c hevs htty hst hout
    cases c with
    | true => exact hout
    | false =>
      rcases hs : step fs s ev with ⟨s', o, ok⟩
      simp only [runAux, Bool.false_eq_true, if_false, hs]
      have hstep := step_clean hfs htty hst (hevs ev (List.mem_cons_self ev rest))
      rw [hs] at hstep
      obtain ⟨ho, hst', htty'⟩ := hstep
      exact ih s' (out ++ o) (!ok) (fun e he => hevs e (List.mem_cons_of_mem ev he))
        htty' hst' (cleanS_append.mpr ⟨hout, ho⟩)

def rCleanC9 : Report :=
  ⟨"call", Outcome.passed, "tests/test_cli.py", 0, "test_ok", "0.01",
   "tests/test_cli.py::test_ok", none, none⟩

def rDirtyC9 : Report :=
  ⟨"call", Outcome.passed, "tests/test_cli.py", 0, "test_\rok", "0.01",
   "tests/test_cli.py::test_ok", none, none⟩

end PxReporter

/-! ## Claim theorems

Sample inputs shared by witnesses and counterexamples. -/

namespace PxReporter

/-- A ten-line file for the snippet-window example. -/
def demo10 : List String :=
  ["l1", "l2", "l3", "l4", "l5", "l6", "l7", "l8", "l9", "l10"]

/-- A report for a phase the reporter does not handle. -/
def sampleOtherPhase : Report :=
  ⟨"collect", Outcome.passed, "t.py", 0, "t", "0.00", "t.py::t", none, none⟩

/-- C1: over any dispatched sequence of `test_report` events (with any
non-failing `collect_report` events interleaved, and no failing ones), the
sum of the six status counters equals the number of `test_report` events
that produced a terminal status; each such event increments exactly one
counter by exactly one (the four `incrStat` equations and the sum step),
and a setup or teardown phase that passes leaves the reporter unchanged. -/
theorem c1_status_counters_sum :
    (∀ (tty : Bool) (fs : String → Option (List String)) (evs : List Event),
        (∀ ev ∈ evs, c1Event ev = true) →
        sumStats (run tty fs evs).1.stats = countTerminal evs)
    ∧ (∀ (s : RState) (r : Report) (st : Status),
        logreport_status r.when r.outcome = some st →
        (pytest_runtest_logreport s r).1.stats = incrStat s.stats st)
    ∧ (∀ st : Stats,
        incrStat st Status.passed = { st with passed := st.passed + 1 } ∧
        incrStat st Status.failed = { st with failed := st.failed + 1 } ∧
        incrStat st Status.skipped = { st with skipped := st.skipped + 1 } ∧
        incrStat st Status.error = { st with error := st.error + 1 })
    ∧ (∀ (st : Stats) (x : Status), sumStats (incrStat st x) = sumStats st + 1)
    ∧ (∀ (s : RState) (r : Report), r.outcome = Outcome.passed →
        (r.when = "setup" ∨ r.when = "teardown") →
        pytest_runtest_logreport s r = (s, "")) := by
  refine ⟨?_, logreport_stats_incr, fun st => ⟨rfl, rfl, rfl, rfl⟩, sumStats_incr, ?_⟩
  · intro tty fs evs h
    have := runAux_c1 fs evs (initState tty) "" h
    simpa [run, initState, sumStats] using this
  · intro s r hout hw
    unfold pytest_runtest_logreport
    rcases hw with hw | hw <;> rw [hw, hout] <;> rfl

/-- C1 witness: a pass in the call phase counts once; a setup pass counts
nothing. -/
theorem c1_status_counters_sum_witness :
    sumStats (run false (fun _ => none) [Event.testReport rCleanC9]).1.stats =
      countTerminal [Event.testReport rCleanC9] ∧
    pytest_runtest_logreport (initState false) (⟨"setup", Outcome.passed, "t.py", 0, "t", "0.00", "t.py::t", none, none⟩ : Report) =
      (initState false, "") :=
  ⟨c1_status_counters_sum.1 false (fun _ => none) [Event.testReport rCleanC9] (by decide),
   c1_status_counters_sum.2.2.2.2 (initState false) _ (by decide) (Or.inl (by decide))⟩

/-- C2: `pytest_runtest_logreport` ignores phases other than
setup/call/teardown entirely; failures are `error` in setup/teardown and
`failed` in call; a pass counts as `passed` exactly in the call phase; and
the counter matching the determined status is the one incremented. -/
theorem c2_phase_status_mapping :
    (∀ (s : RState) (r : Report), r.when ≠ "setup" → r.when ≠ "call" → r.when ≠ "teardown" →
        pytest_runtest_logreport s r = (s, ""))
    ∧ logreport_status "setup" Outcome.failed = some Status.error
    ∧ logreport_status "teardown" Outcome.failed = some Status.error
    ∧ logreport_status "call" Outcome.failed = some Status.failed
    ∧ (∀ w, (logreport_status w Outcome.passed).isSome ↔ w = "call")
    ∧ logreport_status "call" Outcome.passed = some Status.passed
    ∧ (∀ (s : RState) (r : Report) (st : Status), logreport_status r.when r.outcome = some st →
        (pytest_runtest_logreport s r).1.stats = incrStat s.stats st)
    ∧ (∀ (st : Stats) (x : Status), getStat (incrStat st x) x = getStat st x + 1)
    ∧ (∀ (st : Stats) (x y : Status), y ≠ x → getStat (incrStat st x) y = getStat st y) := by
  refine ⟨?_, rfl, rfl, rfl, ?_, rfl, ?_, ?_, ?_⟩
  · intro s r h1 h2 h3
    unfold pytest_runtest_logreport
    rw [if_neg]
    rintro (h | h | h) <;> [exact h1 h; exact h2 h; exact h3 h]
  · intro w
    constructor
    · intro h
      by_cases hc : w = "call"
      · exact hc
      · exfalso
        unfold logreport_status at h
        by_cases hg : w = "setup" ∨ w = "call" ∨ w = "teardown"
        · rw [if_pos hg] at h
          simp [hc] at h
        · rw [if_neg hg] at h
          simp at h
    · intro h
      subst h
      decide
  · intro s r st h
    have hg : r.when = "setup" ∨ r.when = "call" ∨ r.when = "teardown" := by
      by_contra hg
      unfold logreport_status at h
      rw [if_neg hg] at h
      cases h
    unfold pytest_runtest_logreport
    rw [if_pos hg]
    simp only [h]
    split <;> simp [print_test_result_stats]
  · intro st x
    cases x <;> rfl
  · intro st x y h
    cases x <;> cases y <;> first | exact absurd rfl h | rfl

/-- C2 witness: an unrecognized phase leaves the reporter unchanged, and a
call-phase pass maps to the `passed` status. -/
theorem c2_phase_status_mapping_witness :
    pytest_runtest_logreport (initState false) sampleOtherPhase = (initState false, "") ∧
    (logreport_status "call" Outcome.passed).isSome :=
  ⟨c2_phase_status_mapping.1 (initState false) sampleOtherPhase
      (by decide) (by decide) (by decide),
   (c2_phase_status_mapping.2.2.2.2.1 "call").mpr rfl⟩

/-- C3: the summary block reports a RESULT line whose label depends only on
whether the exit status is zero and shows the exit status verbatim, a TOTAL
equal to the sum of all six status counts, the four per-status lines, and
on 3 passed / 1 failed / 1 skipped / 0 errors with exit status 1 reads
total=5, passed=3, failed=1, skipped=1, errors=0 with the failing label. -/
theorem c3_summary_block :
    (∀ (st : Stats) (es : Int) (d : String),
        (summaryLines st es d).getD 1 "" =
          "RESULT   " ++ (if es = 0 then "✓ PASSED" else "✗ FAILED") ++
            " (exit code " ++ decStrInt es ++ ")")
    ∧ (∀ (st : Stats) (es : Int) (d : String),
        (summaryLines st es d).getD 2 "" =
          "TOTAL    " ++ decStr (st.passed + st.failed + st.skipped + st.error +
            st.xfailed + st.xpassed) ++ " tests in " ++ d ++ "s")
    ∧ (∀ (st : Stats) (es : Int) (d : String),
        (summaryLines st es d).getD 3 "" = "PASSED   " ++ decStr st.passed)
    ∧ (∀ (st : Stats) (es : Int) (d : String),
        (summaryLines st es d).getD 4 "" = "FAILED   " ++ decStr st.failed)
    ∧ (∀ (st : Stats) (es : Int) (d : String),
        (summaryLines st es d).getD 5 "" = "SKIPPED  " ++ decStr st.skipped)
    ∧ (∀ (st : Stats) (es : Int) (d : String),
        (summaryLines st es d).getD 6 "" = "ERRORS   " ++ decStr st.error)
    ∧ (∀ es es' : Int, (es = 0 ↔ es' = 0) → resultLabel es = resultLabel es')
    ∧ (∀ d : String, summaryLines ⟨3, 1, 1, 0, 0, 0⟩ 1 d =
        [ "", "RESULT   ✗ FAILED (exit code 1)", "TOTAL    5 tests in " ++ d ++ "s",
          "PASSED   3", "FAILED   1", "SKIPPED  1", "ERRORS   0" ]) := by
  refine ⟨?_, fun st es d => rfl, fun st es d => rfl, fun st es d => rfl,
    fun st es d => rfl, fun st es d => rfl, ?_, fun d => rfl⟩
  · intro st es d
    unfold summaryLines resultLabel
    rfl
  · intro es es' h
    unfold resultLabel
    by_cases h0 : es = 0
    · rw [if_pos h0, if_pos (h.mp h0)]
    · rw [if_neg h0, if_neg (fun hh => h0 (h.mpr hh))]

/-- C3 witness: two nonzero exit statuses produce the same (failing)
label. -/
theorem c3_summary_block_witness : resultLabel 2 = resultLabel 3 :=
  c3_summary_block.2.2.2.2.2.2.1 2 3 (by decide)

/-- C4 (amended): for a message containing "assert" and "==" (and not
"did not raise" case-insensitively), the heuristic splits once on "==",
removes "AssertionError:" occurrences and the first "assert" from the left
side, and renders "Expected: right" followed by the aligned line
"     Actual:   left" when the left side is nonempty; "assert 1 == 2"
yields exactly ["Expected: 2", "     Actual:   1"]. -/
theorem c4_assert_eq_explanation :
    (∀ (msg : String) (pre post : List Char),
        splitFirst "==".data msg.data = some (pre, post) →
        pyIn "did not raise".data (pyLower msg.data) = false →
        pyIn "assert".data (pyLower msg.data) = true →
        pyStrip (pyReplaceOnce "assert".data []
          (pyReplaceAll "AssertionError:".data [] pre)) ≠ [] →
        '\n' ∉ pyStrip (pyReplaceOnce "assert".data []
          (pyReplaceAll "AssertionError:".data [] pre)) →
        '\n' ∉ pyStrip post →
        assertion_explanation (some msg) =
          some [String.mk ("Expected: ".data ++ pyStrip post),
                String.mk ("     Actual:   ".data ++ pyStrip (pyReplaceOnce "assert".data []
                  (pyReplaceAll "AssertionError:".data [] pre)))])
    ∧ assertion_explanation (some "assert 1 == 2") =
        some ["Expected: 2", "     Actual:   1"] :=
  ⟨c4_general, by decide⟩

/-- C4 counterexample: the claimed pair of lines "Expected: 2" and
"Actual: 1" is not what the heuristic yields; the second line carries the
alignment padding. -/
theorem c4_exact_lines_counterexample :
    assertion_explanation (some "assert 1 == 2") ≠ some ["Expected: 2", "Actual: 1"] := by
  decide

/-- C4 witness: the general statement applied to "assert 1 == 2". -/
theorem c4_assert_eq_explanation_witness :
    assertion_explanation (some "assert 1 == 2") =
      some [String.mk ("Expected: ".data ++ pyStrip " 2".data),
            String.mk ("     Actual:   ".data ++ pyStrip (pyReplaceOnce "assert".data []
              (pyReplaceAll "AssertionError:".data [] "assert 1 ".data)))] :=
  c4_assert_eq_explanation.1 "assert 1 == 2" "assert 1 ".data " 2".data
    (by decide) (by decide) (by decide) (by decide) (by decide) (by decide)

/-- C5 (amended): for a message containing "did not raise"
case-insensitively, the heuristic phrases "Expected X to be raised, but
none was." where X is the stripped text after the last occurrence of the
canonical uppercase marker "DID NOT RAISE" (the whole message when the
canonical form is absent), defaulting to "expected exception" when empty;
the canonical example yields the expected single line. -/
theorem c5_did_not_raise_explanation :
    (∀ msg : String,
        pyIn "did not raise".data (pyLower msg.data) = true →
        '\n' ∉ pyStrip ((pySplit "DID NOT RAISE".data msg.data).getLastD []) →
        assertion_explanation (some msg) =
          some [String.mk ("Expected ".data ++
            (if pyStrip ((pySplit "DID NOT RAISE".data msg.data).getLastD []) = []
             then "expected exception".data
             else pyStrip ((pySplit "DID NOT RAISE".data msg.data).getLastD [])) ++
            " to be raised, but none was.".data)])
    ∧ assertion_explanation (some "Failed: DID NOT RAISE <class 'ValueError'>") =
        some ["Expected <class 'ValueError'> to be raised, but none was."] :=
  ⟨c5_general, by decide⟩

/-- C5 counterexample: a message matching only case-insensitively does not
yield the text following the matched phrase; the whole message is used. -/
theorem c5_lowercase_marker_counterexample :
    assertion_explanation (some "x did not raise Foo") ≠
      some ["Expected Foo to be raised, but none was."] ∧
    assertion_explanation (some "x did not raise Foo") =
      some ["Expected x did not raise Foo to be raised, but none was."] := by
  exact ⟨by decide, by decide⟩

/-- C5 witness: the general statement applied to the canonical example. -/
theorem c5_did_not_raise_explanation_witness :
    assertion_explanation (some "Failed: DID NOT RAISE <class 'ValueError'>") =
      some [String.mk ("Expected ".data ++
        (if pyStrip ((pySplit "DID NOT RAISE".data
            "Failed: DID NOT RAISE <class 'ValueError'>".data).getLastD []) = []
         then "expected exception".data
         else pyStrip ((pySplit "DID NOT RAISE".data
            "Failed: DID NOT RAISE <class 'ValueError'>".data).getLastD [])) ++
        " to be raised, but none was.".data)] :=
  c5_did_not_raise_explanation.1 "Failed: DID NOT RAISE <class 'ValueError'>"
    (by decide) (by decide)

/-- C6: the snippet loader returns exactly the lines whose zero-based index
lies in the window, each paired with its one-based number; on a ten-line
file with target 5 and radius 2 it returns lines 3 through 7, and the
caller marks line 5 distinctly from the rest. -/
theorem c6_snippet_window :
    (∀ (lines : List String) (n r i : Int) (t : String),
        ((i, t) ∈ load_snippet lines n r ↔
          max 0 (n - r - 1) < i ∧ i ≤ min (lines.length : Int) (n + r) ∧
          t = pyRstripNl (lines.getD (i - 1).toNat "")))
    ∧ load_snippet demo10 5 2 =
        [(3, "l3"), (4, "l4"), (5, "l5"), (6, "l6"), (7, "l7")]
    ∧ snippetPointer 5 5 = "→"
    ∧ (∀ i : Int, i ≠ 5 → snippetPointer i 5 = " ") := by
  refine ⟨load_snippet_mem, by decide, rfl, ?_⟩
  intro i hi
  unfold snippetPointer
  rw [if_neg hi]

/-- C6 witness: line 3 belongs to the window around line 5 and is not the
marked line. -/
theorem c6_snippet_window_witness :
    (3, "l3") ∈ load_snippet demo10 5 2 ∧ snippetPointer 3 5 = " " :=
  ⟨(c6_snippet_window.1 demo10 5 2 3 "l3").mpr (by decide),
   c6_snippet_window.2.2.2 3 (by decide)⟩

/-- C7 (amended): an `OSError` (missing file, permission denied) yields "no
snippet" and a readable file yields its window, while rendering of the rest
of the failure block never depends on snippet availability; a decoding
error, however, is not an `OSError` and propagates (see the
counterexample). -/
theorem c7_io_failure_no_snippet :
    (∀ lineno context : Int,
        load_snippet_checked ReadResult.osError lineno context = Except.ok none)
    ∧ (∀ (lines : List String) (lineno context : Int),
        load_snippet_checked (ReadResult.ok lines) lineno context =
          Except.ok (some (load_snippet lines lineno context)))
    ∧ (∀ (fs fs' : String → Option (List String)) (tty : Bool) (idx : Nat) (r : Report),
        (render_single_failure fs tty idx r).2 = (render_single_failure fs' tty idx r).2) := by
  refine ⟨fun _ _ => rfl, fun _ _ _ => rfl, ?_⟩
  intro fs fs' tty idx r
  unfold render_single_failure
  cases failure_message r <;> rfl

/-- C7 counterexample: a `UnicodeDecodeError` while decoding the file is
not caught by `except OSError` and propagates instead of yielding "no
snippet". -/
theorem c7_decode_error_counterexample :
    load_snippet_checked ReadResult.decodeError 5 2 = Except.error () ∧
    load_snippet_checked ReadResult.decodeError 5 2 ≠ Except.ok none :=
  ⟨rfl, fun h => Except.noConfusion h⟩

/-- C8 (code bug): message extraction prefers the structured crash summary
and has a generic "test failed" fallback, but a record without structured
crash info whose rendered failure text is the empty string makes
`"".splitlines()[0]` raise an IndexError instead of falling back. -/
theorem c8_message_extraction_crash :
    failure_message emptyTextReport = Except.error ()
    ∧ failure_message { emptyTextReport with
        longrepr := some (LongreprV.obj (some ⟨"AssertionError: assert 1 == 2", "t.py", 7⟩) "x") } =
        Except.ok "AssertionError: assert 1 == 2"
    ∧ failure_message { emptyTextReport with longreprtext := none } = Except.ok "test failed"
    ∧ failure_message { emptyTextReport with longreprtext := some "boom\nmore" } = Except.ok "boom" := by
  exact ⟨rfl, rfl, rfl, rfl⟩

/-- C9 (amended): when output is not interactive the reporter itself emits
no carriage-return overwrite and no ANSI escape: any run over events whose
payload strings (and snippet file contents) are free of CR and ESC
produces a stream free of them. Payload text is echoed verbatim, so the
unqualified claim fails (see the counterexample). -/
theorem c9_noninteractive_no_control :
    ∀ (fs : String → Option (List String)) (evs : List Event),
      fsClean fs → (∀ ev ∈ evs, eventClean ev) →
      cleanS (runOutput false fs evs) := by
  intro fs evs hfs hevs
  refine runAux_clean hfs evs (initState false) "" false hevs rfl ⟨?_, ?_⟩ (by decide)
  · intro r hr
    cases hr
  · intro e he
    cases he

/-- C9 counterexample: with identical event structure, a test name
containing a carriage return puts one into the non-interactive stream
while the clean name does not, so content does determine the presence of
control sequences. -/
theorem c9_payload_control_counterexample :
    (runOutput false (fun _ => none) [Event.testReport rDirtyC9]).data.any
      (fun c => c = '\r' || c = escChar) = true
    ∧ (runOutput false (fun _ => none) [Event.testReport rCleanC9]).data.any
      (fun c => c = '\r' || c = escChar) = false := by
  constructor
  · decide
  · decide

/-- C9 witness: a session-start event with clean payloads yields a clean
non-interactive stream. -/
theorem c9_noninteractive_no_control_witness :
    cleanS (runOutput false (fun _ => none)
      [Event.sessionStart "3.12.3" "8.3.2" "/repo" "auto-detected"]) :=
  c9_noninteractive_no_control (fun _ => none)
    [Event.sessionStart "3.12.3" "8.3.2" "/repo" "auto-detected"]
    (fun _ _ h => Option.noConfusion h) (by decide)

/-- C10: the expected-failure and unexpected-pass counters are initialized
to zero and no event handler ever increments them, so they are zero after
any run; they are nevertheless part of the stats sum used by the progress
line and the summary total. -/
theorem c10_xcounters_stay_zero :
    (∀ (tty : Bool) (fs : String → Option (List String)) (evs : List Event),
        (run tty fs evs).1.stats.xfailed = 0 ∧ (run tty fs evs).1.stats.xpassed = 0)
    ∧ (∀ st : Stats, sumStats st =
        st.passed + st.failed + st.skipped + st.error + st.xfailed + st.xpassed) := by
  refine ⟨?_, fun st => rfl⟩
  intro tty fs evs
  exact runAux_xcounters fs evs (initState tty) "" false

end PxReporter
